import Mathlib

/-!
# Verification of the cc-wrapped usage aggregation and merge engine

A shallow embedding of the core of `src/collector.ts` (event parsing,
deduplication, the usage reducer, the source locator and cache reader) and
`src/stats.ts` (the stats merger: apportionment, streaks, distributions,
top models/providers) of the cc-wrapped repository, together with theorems
settling the specification's claims about that core.

Modelling conventions:
  * JavaScript numbers that the program treats as token counts are embedded
    as `Nat` (the data model calls them token counts; `ensureNumber`
    defaults missing or non-numeric JSON fields to zero, embedded as
    `Option Nat` with `Option.getD 0`).  Costs are embedded as `ℚ`.
  * A `Date` value is embedded as a calendar date plus milliseconds of day,
    with the runtime in UTC, so date-only keys parse to UTC midnights and
    day differences are exact multiples of 86,400,000 ms.
  * JS `Map`/`Set` iteration order is insertion order; both are embedded as
    lists (association lists for maps) with `Map.set` updating an existing
    key in place and appending a fresh one.
  * File system and external collaborators (pricing resolver, model
    directory) are passed in as explicit functions.
-/

namespace CCWrapped

/-- JavaScript `Math.round`: round half toward positive infinity,
    `⌊q + 1/2⌋`. -/
def jsRound (q : ℚ) : ℤ := ⌊q + 1/2⌋

/-- `Map.get` on an association list (insertion-ordered JS `Map`). -/
def lookupAssoc {α β : Type} [DecidableEq α] : List (α × β) → α → Option β
  | [], _ => none
  | (k, v) :: rest, k' => if k = k' then some v else lookupAssoc rest k'

/-- `Map.set`: update an existing key in place, else append. -/
def updateAssoc {α β : Type} [DecidableEq α] : List (α × β) → α → β → List (α × β)
  | [], k, v => [(k, v)]
  | (k0, v0) :: rest, k, v =>
    if k0 = k then (k, v) :: rest else (k0, v0) :: updateAssoc rest k v

/-- `map.set(k, (map.get(k) || 0) + n)`. -/
def addToCount {α : Type} [DecidableEq α] (m : List (α × Nat)) (k : α) (n : Nat) :
    List (α × Nat) :=
  updateAssoc m k ((lookupAssoc m k).getD 0 + n)

/-- `map.has(k)`. -/
def hasKey {α β : Type} [DecidableEq α] (m : List (α × β)) (k : α) : Bool :=
  (lookupAssoc m k).isSome

/-- `Set.add`: append when absent. -/
def addToSet {α : Type} [DecidableEq α] (l : List α) (a : α) : List α :=
  if a ∈ l then l else l ++ [a]

/-- The whitespace class of `String.prototype.trim` (restricted to the
    characters that can occur in the embedded strings). -/
def isJsSpace (c : Char) : Bool :=
  c == ' ' || c == '\t' || c == '\n' || c == '\r'

/-- `String.prototype.trim`. -/
def jsTrim (s : String) : String :=
  String.mk (((s.data.dropWhile isJsSpace).reverse.dropWhile isJsSpace).reverse)

/-- `String.prototype.startsWith`. -/
def jsStartsWith (s pre : String) : Bool :=
  pre.data.isPrefixOf s.data

/-- Insert into a sorted list, before the first element it compares
    less-or-equal to (so earlier elements stay before later ties). -/
def insertSorted {α : Type} (le : α → α → Bool) (a : α) : List α → List α
  | [] => [a]
  | b :: l => if le a b then a :: b :: l else b :: insertSorted le a l

/-- `Array.prototype.sort` with a consistent comparator: a stable sort.
    Stable sorting is unique, so this insertion sort has exactly the
    observable behavior of the engine's sort. -/
def jsSortBy {α : Type} (le : α → α → Bool) : List α → List α
  | [] => []
  | a :: l => insertSorted le a (jsSortBy le l)

/-! ## Calendar dates and timestamps -/

/-- A calendar date, the structured form of a `YYYY-MM-DD` date key. -/
structure CalDate where
  year : Int
  month : Nat
  day : Nat
deriving DecidableEq

def isLeapYear (y : Int) : Bool :=
  (y % 4 == 0 && y % 100 != 0) || y % 400 == 0

def daysInMonth (y : Int) (m : Nat) : Nat :=
  if m = 2 then (if isLeapYear y then 29 else 28)
  else if m = 4 ∨ m = 6 ∨ m = 9 ∨ m = 11 then 30
  else 31

/-- Whether a `YYYY-MM-DD` string parses to a real date with `new Date`
    (the ISO parser rejects out-of-range months/days as Invalid Date). -/
def CalDate.isValid (d : CalDate) : Bool :=
  1 ≤ d.month && d.month ≤ 12 && 1 ≤ d.day && d.day ≤ daysInMonth d.year d.month

/-- Days since the Unix epoch of a civil date (standard civil-calendar
    conversion); models the UTC day arithmetic of JS `Date`. -/
def daysFromCivil (d : CalDate) : Int :=
  let y : Int := if d.month ≤ 2 then d.year - 1 else d.year
  let era : Int := (if 0 ≤ y then y else y - 399) / 400
  let yoe : Int := y - era * 400
  let mp : Int := (Int.ofNat d.month + 9) % 12
  let doy : Int := (153 * mp + 2) / 5 + Int.ofNat d.day - 1
  let doe : Int := yoe * 365 + yoe / 4 - yoe / 100 + doy
  era * 146097 + doe - 719468

/-- `Date.prototype.getDay` (0 = Sunday): the Unix epoch fell on a
    Thursday. -/
def weekdayIndex (d : CalDate) : Nat :=
  ((daysFromCivil d + 4) % 7).toNat

/-- Lexicographic order on dates; for four-digit years this is exactly the
    JS string order on zero-padded `YYYY-MM-DD` keys. -/
def CalDate.le (a b : CalDate) : Bool :=
  a.year < b.year ||
    (a.year == b.year &&
      (a.month < b.month || (a.month == b.month && a.day ≤ b.day)))

/-- `new Date(date.getTime() - 24*60*60*1000)` taken as a calendar date:
    under the UTC embedding this is the previous calendar day. -/
def prevDay (d : CalDate) : CalDate :=
  if 1 < d.day then ⟨d.year, d.month, d.day - 1⟩
  else if 1 < d.month then ⟨d.year, d.month - 1, daysInMonth d.year (d.month - 1)⟩
  else ⟨d.year - 1, 12, 31⟩

/-- A successfully parsed timestamp: its local (UTC) calendar date plus the
    milliseconds elapsed within that day. -/
structure Timestamp where
  date : CalDate
  msOfDay : Nat
deriving DecidableEq

/-- `Date.prototype.getTime`. -/
def Timestamp.epochMs (t : Timestamp) : Int :=
  daysFromCivil t.date * 86400000 + t.msOfDay

/-! ## Raw log records (`collector.ts`) -/

/-- The `usage` block of a record; `none` fields model JSON fields that are
    missing or not finite numbers (`ensureNumber` turns them into 0). -/
structure RawUsage where
  input_tokens : Option Nat
  output_tokens : Option Nat
  cache_creation_input_tokens : Option Nat
  cache_read_input_tokens : Option Nat
deriving DecidableEq

structure RawMessage where
  id : Option String
  model : Option String
  usage : Option RawUsage
deriving DecidableEq

/-- One parsed JSONL record.  `timestamp = none` models a missing field or
    one that `new Date` turns into an Invalid Date. -/
structure RawEntry where
  timestamp : Option Timestamp
  sessionId : Option String
  message : Option RawMessage
  requestId : Option String
  costUSD : Option ℚ
deriving DecidableEq

/-- JS truthiness of an optional string (`undefined` and `""` are falsy). -/
def jsTruthyStr : Option String → Bool
  | none => false
  | some s => s ≠ ""

/-- `createUniqueHash` (collector.ts): identity key from the
    message id / request id pair, absent if either is falsy. -/
def createUniqueHash (e : RawEntry) : Option String :=
  let messageId := e.message.bind RawMessage.id
  let requestId := e.requestId
  if jsTruthyStr messageId && jsTruthyStr requestId then
    some (messageId.getD "" ++ ":" ++ requestId.getD "")
  else none

/-- Per-token unit prices of one model. -/
structure ModelPricing where
  inputPrice : ℚ
  outputPrice : ℚ
  cacheCreationPrice : ℚ
  cacheReadPrice : ℚ
deriving DecidableEq

/-- Modelled from the spec: `calculateCostUSD` lives in `src/pricing.ts`,
    which is not among the provided sources.  Per the spec's Pricing
    Resolver contract it "computes cost from token counts" using the
    per-model unit prices. -/
def calculateCostUSD (inputTokens outputTokens cacheCreationTokens cachedInputTokens : Nat)
    (p : ModelPricing) : ℚ :=
  inputTokens * p.inputPrice + outputTokens * p.outputPrice +
    cacheCreationTokens * p.cacheCreationPrice + cachedInputTokens * p.cacheReadPrice

/-- `input + output + cache_creation + cache_read` of a usage block after
    `ensureNumber` defaulting. -/
def entryTotalOf (u : RawUsage) : Nat :=
  u.input_tokens.getD 0 + u.output_tokens.getD 0 +
    u.cache_creation_input_tokens.getD 0 + u.cache_read_input_tokens.getD 0

/-- The accumulator state of `collectClaudeUsageSummary`'s scan loop. -/
structure CollectorState where
  processedHashes : List String
  pricingCache : List (String × Option ModelPricing)
  dailyActivity : List (CalDate × Nat)
  sessionIds : List String
  modelTokenTotals : List (String × Nat)
  totalInputTokens : Nat
  totalOutputTokens : Nat
  totalCacheCreationTokens : Nat
  totalCacheReadTokens : Nat
  totalTokens : Nat
  totalCostUSD : ℚ
  firstTimestamp : Option Timestamp
  totalMessages : Nat
deriving DecidableEq

def initialCollectorState : CollectorState :=
  ⟨[], [], [], [], [], 0, 0, 0, 0, 0, 0, none, 0⟩

/-- The memoized pricing estimate (collector.ts lines 535-553): look the
    model up in the per-run pricing cache, fetch and memoize on a miss, and
    add the estimated cost when a price is known. -/
def applyPricing (pricing : String → Option ModelPricing) (model : String)
    (input output cacheCreate cacheRead : Nat) (s : CollectorState) : CollectorState :=
  let cached := lookupAssoc s.pricingCache model
  let priceResult := match cached with
    | some p => p
    | none => pricing model
  let s := match cached with
    | some _ => s
    | none => { s with pricingCache := s.pricingCache ++ [(model, pricing model)] }
  match priceResult with
  | some p =>
    { s with totalCostUSD :=
        s.totalCostUSD + calculateCostUSD input output cacheCreate cacheRead p }
  | none => s

/-- The usage block / model / pricing part of the reducer (collector.ts
    lines 518-554): token totals, the per-model token map, and the memoized
    pricing estimate when the record had no explicit cost. -/
def processUsage (pricing : String → Option ModelPricing) (hasCost : Bool)
    (s : CollectorState) (e : RawEntry) : CollectorState :=
  match e.message.bind RawMessage.usage with
  | none => s
  | some u =>
    let input := u.input_tokens.getD 0
    let output := u.output_tokens.getD 0
    let cacheCreate := u.cache_creation_input_tokens.getD 0
    let cacheRead := u.cache_read_input_tokens.getD 0
    let entryTotal := input + output + cacheCreate + cacheRead
    let s := { s with
      totalInputTokens := s.totalInputTokens + input
      totalOutputTokens := s.totalOutputTokens + output
      totalCacheCreationTokens := s.totalCacheCreationTokens + cacheCreate
      totalCacheReadTokens := s.totalCacheReadTokens + cacheRead
      totalTokens := s.totalTokens + entryTotal }
    match e.message.bind RawMessage.model with
    | none => s
    | some model =>
      if jsTrim model ≠ "" then
        let s := { s with modelTokenTotals := addToCount s.modelTokenTotals model entryTotal }
        if !hasCost && 0 < entryTotal then
          applyPricing pricing model input output cacheCreate cacheRead s
        else s
      else s

/-- Everything after the dedup gate (collector.ts lines 488-554): timestamp
    validation and year filter, earliest timestamp, daily activity, session
    ids, explicit cost, then the usage block. -/
def processAfterDedup (year : Int) (pricing : String → Option ModelPricing)
    (s : CollectorState) (e : RawEntry) : CollectorState :=
  match e.timestamp with
  | none => s
  | some ts =>
    if ts.date.year ≠ year then s
    else
      let s := { s with
        firstTimestamp := match s.firstTimestamp with
          | none => some ts
          | some f => if ts.epochMs < f.epochMs then some ts else some f
        dailyActivity := addToCount s.dailyActivity ts.date 1
        totalMessages := s.totalMessages + 1 }
      let s := match e.sessionId with
        | some sid => if sid ≠ "" then { s with sessionIds := addToSet s.sessionIds sid } else s
        | none => s
      let hasCost := e.costUSD.isSome
      let s := match e.costUSD with
        | some c => { s with totalCostUSD := s.totalCostUSD + c }
        | none => s
      processUsage pricing hasCost s e

/-- One loop iteration of `collectClaudeUsageSummary`: the dedup gate runs
    before timestamp validation, so even an out-of-year record's hash is
    recorded. -/
def processStep (year : Int) (pricing : String → Option ModelPricing)
    (s : CollectorState) (e : RawEntry) : CollectorState :=
  match createUniqueHash e with
  | some h =>
    if h ∈ s.processedHashes then s
    else processAfterDedup year pricing
      { s with processedHashes := s.processedHashes ++ [h] } e
  | none => processAfterDedup year pricing s e

/-- `ClaudeUsageSummary` (collector.ts). -/
structure ClaudeUsageSummary where
  totalInputTokens : Nat
  totalOutputTokens : Nat
  totalCacheCreationTokens : Nat
  totalCacheReadTokens : Nat
  totalTokens : Nat
  totalCostUSD : ℚ
  modelTokenTotals : List (String × Nat)
  firstTimestamp : Option Timestamp
  dailyActivity : List (CalDate × Nat)
  totalMessages : Nat
  totalSessions : Nat
deriving DecidableEq

def summaryOfState (s : CollectorState) : ClaudeUsageSummary :=
  ⟨s.totalInputTokens, s.totalOutputTokens, s.totalCacheCreationTokens,
    s.totalCacheReadTokens, s.totalTokens, s.totalCostUSD, s.modelTokenTotals,
    s.firstTimestamp, s.dailyActivity, s.totalMessages, s.sessionIds.length⟩

/-- `collectClaudeUsageSummary`, applied to the stream of parsed records of
    all `.jsonl` files under all resolved roots (in scan order).  A missing
    or empty root contributes no records. -/
def collectClaudeUsageSummary (year : Int) (pricing : String → Option ModelPricing)
    (entries : List RawEntry) : ClaudeUsageSummary :=
  summaryOfState (entries.foldl (processStep year pricing) initialCollectorState)

/-- The zero-valued summary returned when no data exists. -/
def emptyUsageSummary : ClaudeUsageSummary :=
  ⟨0, 0, 0, 0, 0, 0, [], none, [], 0, 0⟩

/-! ## The stats cache (`ClaudeStatsCache`) and its reader -/

/-- One element of the cache's `dailyActivity` array.  `date = none` models
    a missing or empty (falsy) date string; option fields mirror the `?? 0`
    defaulting in the merger. -/
structure CacheDailyEntry where
  date : Option CalDate
  messageCount : Option Nat
  sessionCount : Option Nat
  toolCallCount : Option Nat
deriving DecidableEq

/-- One element of the cache's `dailyModelTokens` array. -/
structure CacheDailyModelTokens where
  date : Option CalDate
  tokensByModel : List (String × Nat)
deriving DecidableEq

/-- One value of the cache's `modelUsage` record. -/
structure ModelUsageRecord where
  inputTokens : Option Nat
  outputTokens : Option Nat
  cacheReadInputTokens : Option Nat
  cacheCreationInputTokens : Option Nat
  webSearchRequests : Option Nat
  costUSD : Option ℚ
  contextWindow : Option Nat
deriving DecidableEq

/-- `ClaudeStatsCache` restricted to the fields `calculateStats` reads
    (`version`, `lastComputedDate`, `totalSessions` and `totalMessages` are
    declared in the interface but never consulted by the merger). -/
structure ClaudeStatsCache where
  dailyActivity : List CacheDailyEntry
  dailyModelTokens : List CacheDailyModelTokens
  modelUsage : List (String × ModelUsageRecord)
  firstSessionDate : Option Timestamp
deriving DecidableEq

def emptyCache : ClaudeStatsCache := ⟨[], [], [], none⟩

def CLAUDE_DATA_PATH : String := "~/.claude"

def CLAUDE_CONFIG_PATH : String := "~/.config/claude"

def joinPath (a b : String) : String := a ++ "/" ++ b

/-- `resolveClaudeDataPath` (collector.ts lines 361-378): env override when
    it holds a `stats-cache.json`, else the XDG directory, else the legacy
    directory, else `null`.  The file system is the `pathExists`
    collaborator. -/
def resolveClaudeDataPath (envConfigDir : Option String) (pathExists : String → Bool) :
    Option String :=
  let envPath := jsTrim (envConfigDir.getD "")
  if envPath ≠ "" && pathExists (joinPath envPath "stats-cache.json") then some envPath
  else if pathExists (joinPath CLAUDE_CONFIG_PATH "stats-cache.json") then
    some CLAUDE_CONFIG_PATH
  else if pathExists (joinPath CLAUDE_DATA_PATH "stats-cache.json") then
    some CLAUDE_DATA_PATH
  else none

/-- What reading and `JSON.parse`-ing a cache file can yield. -/
inductive CacheFileContent where
  | invalidJson : CacheFileContent
  | nonObject : CacheFileContent
  | valid : ClaudeStatsCache → CacheFileContent
deriving DecidableEq

/-- `loadClaudeStatsCache` (collector.ts lines 402-411): raises when no
    data path resolves, when the file is not valid JSON, or when the parsed
    value is not an object; exceptions are embedded as `Except.error`. -/
def loadClaudeStatsCache (envConfigDir : Option String) (pathExists : String → Bool)
    (readCacheFile : String → CacheFileContent) : Except String ClaudeStatsCache :=
  match resolveClaudeDataPath envConfigDir pathExists with
  | none => Except.error "Claude data not found"
  | some dataPath =>
    match readCacheFile (joinPath dataPath "stats-cache.json") with
    | CacheFileContent.invalidJson => Except.error "Unexpected token in JSON"
    | CacheFileContent.nonObject => Except.error "Invalid stats-cache.json format"
    | CacheFileContent.valid c => Except.ok c

/-! ## The stats merger (`stats.ts`) -/

/-- `new Date(dateKey).getFullYear()` on a `YYYY-MM-DD` key under the UTC
    embedding: the key's year, or `none` (NaN) when the key is not a real
    date. -/
def jsDateFullYear (d : CalDate) : Option Int :=
  if d.isValid then some d.year else none

/-- The four derived token components of one model. -/
structure TokenComponents where
  input : ℤ
  output : ℤ
  cacheRead : ℤ
  cacheWrite : ℤ
deriving DecidableEq

/-- The rounding-drift adjustment (stats.ts lines 133-137): if the rounded
    components do not sum back to the aggregate, the input component
    absorbs the signed difference. -/
def adjustDrift (tokens : Nat) (i o cr cw : ℤ) : TokenComponents :=
  let scaledTotal := i + o + cr + cw
  if scaledTotal ≠ (tokens : ℤ) then ⟨i + ((tokens : ℤ) - scaledTotal), o, cr, cw⟩
  else ⟨i, o, cr, cw⟩

/-- The per-model apportionment algorithm (stats.ts lines 119-138): scale
    each usage-record field by `tokens / usageTotal`, round, and absorb the
    drift into the input component.  With a zero usage-record sum the
    components keep their initial values (all tokens as input). -/
def apportion (tokens usageInput usageOutput usageCacheRead usageCacheCreate : Nat) :
    TokenComponents :=
  let usageTotal := usageInput + usageOutput + usageCacheRead + usageCacheCreate
  if 0 < usageTotal then
    let ratio : ℚ := (tokens : ℚ) / (usageTotal : ℚ)
    adjustDrift tokens
      (jsRound (usageInput * ratio)) (jsRound (usageOutput * ratio))
      (jsRound (usageCacheRead * ratio)) (jsRound (usageCacheCreate * ratio))
  else ⟨(tokens : ℤ), 0, 0, 0⟩

/-- `ModelStats` (types). -/
structure ModelStats where
  id : String
  name : String
  providerId : String
  count : Nat
  percentage : ℚ
deriving DecidableEq

/-- `ProviderStats` (types). -/
structure ProviderStats where
  id : String
  name : String
  count : Nat
  percentage : ℚ
deriving DecidableEq

/-- The model directory and display-name collaborators (`models.ts`,
    external to the specified core). -/
structure Externals where
  getModelProvider : String → Option String
  getModelDisplayName : String → String
  getProviderDisplayName : String → String

/-- The name-prefix heuristics of `resolveProviderId`. -/
def fallbackProviderId (modelId : String) : String :=
  if jsStartsWith modelId "claude" then "anthropic"
  else if jsStartsWith modelId "gpt" || jsStartsWith modelId "openai" then "openai"
  else "unknown"

/-- `resolveProviderId` (stats.ts lines 227-235): the directory's provider
    when present, non-empty and not "unknown", else the heuristics. -/
def resolveProviderId (ext : Externals) (modelId : String) : String :=
  match ext.getModelProvider modelId with
  | some provider =>
    if provider ≠ "" && provider ≠ "unknown" then provider else fallbackProviderId modelId
  | none => fallbackProviderId modelId

/-- State of the per-model merge loop (stats.ts lines 96-163). -/
structure MergeState where
  totalTokens : ℤ
  totalInputTokens : ℤ
  totalOutputTokens : ℤ
  totalCacheReadTokens : ℤ
  totalCacheWriteTokens : ℤ
  totalWebSearchRequests : Nat
  peakContextWindow : Nat
  providerCounts : List (String × Nat)
  modelStats : List ModelStats
deriving DecidableEq

/-- Tail of one merge-loop iteration: the input/output accumulation that
    runs whether or not a usage record exists, provider attribution, and
    the model-stats push (percentage filled in later). -/
def finishModel (ext : Externals) (hasUsageSummaryTokens : Bool) (s : MergeState)
    (modelId : String) (tokens : Nat) (c : TokenComponents) : MergeState :=
  let s := if hasUsageSummaryTokens then s else
    { s with
      totalInputTokens := s.totalInputTokens + c.input
      totalOutputTokens := s.totalOutputTokens + c.output }
  let providerId := resolveProviderId ext modelId
  { s with
    providerCounts := addToCount s.providerCounts providerId tokens
    modelStats := s.modelStats ++ [⟨modelId, ext.getModelDisplayName modelId, providerId, tokens, 0⟩] }

/-- One iteration of the per-model merge loop (stats.ts lines 108-163):
    models with zero tokens are skipped; totals only accumulate when the
    live summary reported no token scalar; components default to
    all-as-input and are apportioned when a usage record with a positive
    field sum exists. -/
def mergeModelStep (ext : Externals) (hasUsageSummaryTokens : Bool)
    (modelUsage : List (String × ModelUsageRecord)) (s : MergeState)
    (entry : String × Nat) : MergeState :=
  let modelId := entry.1
  let tokens := entry.2
  if tokens = 0 then s
  else
    let s := if hasUsageSummaryTokens then s
      else { s with totalTokens := s.totalTokens + tokens }
    match lookupAssoc modelUsage modelId with
    | some u =>
      let c := apportion tokens (u.inputTokens.getD 0) (u.outputTokens.getD 0)
        (u.cacheReadInputTokens.getD 0) (u.cacheCreationInputTokens.getD 0)
      let s := if hasUsageSummaryTokens then s else
        { s with
          totalCacheReadTokens := s.totalCacheReadTokens + c.cacheRead
          totalCacheWriteTokens := s.totalCacheWriteTokens + c.cacheWrite }
      let s := { s with
        totalWebSearchRequests := s.totalWebSearchRequests + u.webSearchRequests.getD 0
        peakContextWindow := max s.peakContextWindow (u.contextWindow.getD 0) }
      finishModel ext hasUsageSummaryTokens s modelId tokens c
    | none =>
      finishModel ext hasUsageSummaryTokens s modelId tokens ⟨(tokens : ℤ), 0, 0, 0⟩

/-- `usageSummary.totalTokens > 0 || ... || totalCacheCreationTokens > 0`
    (stats.ts lines 90-95). -/
def hasUsageSummaryTokens (us : ClaudeUsageSummary) : Bool :=
  0 < us.totalTokens || 0 < us.totalInputTokens || 0 < us.totalOutputTokens ||
    0 < us.totalCacheReadTokens || 0 < us.totalCacheCreationTokens

/-- `counts[i] += n` on a fixed-size bucket array. -/
def bumpAt (l : List Nat) (i : Nat) (n : Nat) : List Nat :=
  l.set i (l.getD i 0 + n)

/-- The accumulators of the daily-activity phase of `calculateStats`
    (stats.ts lines 14-61).  `monthlyCounts` is modelled from the spec, see
    `buildMonthlyActivity`. -/
structure DailyPhase where
  dailyActivity : List (CalDate × Nat)
  weekdayCounts : List Nat
  monthlyCounts : List Nat
  totalMessages : Nat
  totalSessions : Nat
  totalToolCalls : Nat
deriving DecidableEq

def initialDailyPhase : DailyPhase :=
  ⟨[], [0, 0, 0, 0, 0, 0, 0], [0, 0, 0, 0, 0, 0, 0, 0, 0, 0, 0, 0], 0, 0, 0⟩

/-- One iteration over the live summary's daily-activity map (stats.ts
    lines 22-31): skip keys outside the requested year, record the day's
    message count, bump weekday (and, modelled from the spec, monthly)
    buckets. -/
def livePhaseStep (year : Int) (p : DailyPhase) (kv : CalDate × Nat) : DailyPhase :=
  if jsDateFullYear kv.1 = some year then
    { p with
      dailyActivity := updateAssoc p.dailyActivity kv.1 kv.2
      totalMessages := p.totalMessages + kv.2
      weekdayCounts := bumpAt p.weekdayCounts (weekdayIndex kv.1) kv.2
      monthlyCounts := bumpAt p.monthlyCounts (kv.1.month - 1) kv.2 }
  else p

/-- One iteration over the cache's daily entries (stats.ts lines 34-48):
    skip falsy or out-of-year dates, accumulate message/session/tool-call
    counts and the weekday (and modelled monthly) buckets. -/
def cachePhaseStep (year : Int) (p : DailyPhase) (e : CacheDailyEntry) : DailyPhase :=
  match e.date with
  | none => p
  | some d =>
    if jsDateFullYear d = some year then
      let messageCount := e.messageCount.getD 0
      { p with
        dailyActivity := updateAssoc p.dailyActivity d messageCount
        totalMessages := p.totalMessages + messageCount
        totalSessions := p.totalSessions + e.sessionCount.getD 0
        totalToolCalls := p.totalToolCalls + e.toolCallCount.getD 0
        weekdayCounts := bumpAt p.weekdayCounts (weekdayIndex d) messageCount
        monthlyCounts := bumpAt p.monthlyCounts (d.month - 1) messageCount }
    else p

/-- The year-filtered accumulation of the daily-activity phase (stats.ts
    lines 21-49): the live map when non-empty (sessions taken from the live
    distinct count), else the cache's per-day entries. -/
def dailyPhaseCore (year : Int) (statsCache : ClaudeStatsCache) (us : ClaudeUsageSummary) :
    DailyPhase :=
  if us.dailyActivity ≠ [] then
    { us.dailyActivity.foldl (livePhaseStep year) initialDailyPhase with
      totalSessions := us.totalSessions }
  else
    statsCache.dailyActivity.foldl (cachePhaseStep year) initialDailyPhase

/-- The daily-activity phase (stats.ts lines 21-61): the year-filtered
    accumulation followed by the permissive tool-call and session backstops
    that sum cache entries without year filtering. -/
def dailyPhase (year : Int) (statsCache : ClaudeStatsCache) (us : ClaudeUsageSummary) :
    DailyPhase :=
  let p := dailyPhaseCore year statsCache us
  let p :=
    if p.totalToolCalls = 0 then
      { p with totalToolCalls :=
          statsCache.dailyActivity.foldl (fun n e => n + e.toolCallCount.getD 0) p.totalToolCalls }
    else p
  if p.totalSessions = 0 then
    { p with totalSessions :=
        statsCache.dailyActivity.foldl (fun n e => n + e.sessionCount.getD 0) p.totalSessions }
  else p

/-- Per-model token totals selection (stats.ts lines 63-88): the live map
    when non-empty, else the cache's per-day per-model breakdown summed
    over the requested year, else crude input+output totals from the
    cache's aggregate usage records. -/
def selectModelTokenTotals (year : Int) (statsCache : ClaudeStatsCache)
    (us : ClaudeUsageSummary) : List (String × Nat) :=
  if us.modelTokenTotals ≠ [] then
    us.modelTokenTotals.foldl (fun m kv => updateAssoc m kv.1 kv.2) []
  else
    let fromDaily := statsCache.dailyModelTokens.foldl (fun m e =>
      match e.date with
      | none => m
      | some d =>
        if jsDateFullYear d = some year then
          e.tokensByModel.foldl (fun m kv => addToCount m kv.1 kv.2) m
        else m) []
    if fromDaily ≠ [] then fromDaily
    else
      statsCache.modelUsage.foldl (fun m kv =>
        let tokens := kv.2.inputTokens.getD 0 + kv.2.outputTokens.getD 0
        if 0 < tokens then updateAssoc m kv.1 tokens else m) []

/-- Initial scalar totals of the merge loop: the live summary's scalars
    (stats.ts lines 96-103). -/
def initMergeState (us : ClaudeUsageSummary) : MergeState :=
  ⟨(us.totalTokens : ℤ), (us.totalInputTokens : ℤ), (us.totalOutputTokens : ℤ),
    (us.totalCacheReadTokens : ℤ), (us.totalCacheCreationTokens : ℤ), 0, 0, [], []⟩

/-- Final state of the per-model merge loop. -/
def mergeLoopState (year : Int) (ext : Externals) (statsCache : ClaudeStatsCache)
    (us : ClaudeUsageSummary) : MergeState :=
  (selectModelTokenTotals year statsCache us).foldl
    (mergeModelStep ext (hasUsageSummaryTokens us) statsCache.modelUsage)
    (initMergeState us)

/-! ## Streaks, most-active day and distributions -/

/-- The walk over consecutive pairs of sorted active dates (stats.ts lines
    262-281).  The arguments after the remaining dates are the previous
    date, the current index, `tempStreak`, `tempStreakStart`, `maxStreak`,
    `maxStreakStart` and `maxStreakEnd`.  Date-only keys parse to UTC
    midnights, so `Math.round((curr - prev) / msPerDay)` is the exact day
    difference. -/
def streakWalk : List CalDate → CalDate → Nat → Nat → Nat → Nat → Nat → Nat →
    Nat × Nat × Nat
  | [], _, _, _, _, m, ms, me => (m, ms, me)
  | curr :: rest, prev, i, temp, tempStart, m, ms, me =>
    if daysFromCivil curr - daysFromCivil prev = 1 then
      let temp := temp + 1
      if m < temp then streakWalk rest curr (i + 1) temp tempStart temp tempStart i
      else streakWalk rest curr (i + 1) temp tempStart m ms me
    else streakWalk rest curr (i + 1) 1 i m ms me

/-- The backward walk of `countStreakBackwards` (stats.ts lines 303-317).
    The loop adds one per consecutive active previous day; since the walked
    dates are pairwise distinct keys of the map, `dailyActivity.length`
    steps of fuel make the embedding exact. -/
def countBackFuel (dailyActivity : List (CalDate × Nat)) : Nat → CalDate → Nat
  | 0, _ => 1
  | fuel + 1, d =>
    let check := prevDay d
    if hasKey dailyActivity check then 1 + countBackFuel dailyActivity fuel check
    else 1

/-- `countStreakBackwards`: consecutive active days ending at `startDate`
    (inclusive), walking backwards. -/
def countStreakBackwards (dailyActivity : List (CalDate × Nat)) (startDate : CalDate) : Nat :=
  countBackFuel dailyActivity dailyActivity.length startDate

structure StreakResult where
  maxStreak : Nat
  currentStreak : Nat
  maxStreakDays : List CalDate
deriving DecidableEq

/-- `date.startsWith(String(year))` on a canonical zero-padded
    `YYYY-MM-DD` key with a four-digit year: a year-equality test. -/
def startsWithYearKey (d : CalDate) (year : Int) : Bool :=
  d.year == year

/-- `calculateStreaks` (stats.ts lines 243-300): filter the map's keys to
    the requested year, sort ascending, walk consecutive pairs for the max
    streak (first-found run wins ties), and compute the current streak
    backwards from today, else yesterday, else zero.  `today` is the
    calendar date of `Date.now()`. -/
def calculateStreaks (dailyActivity : List (CalDate × Nat)) (year : Int)
    (today : CalDate) : StreakResult :=
  let activeDates :=
    jsSortBy CalDate.le
      ((dailyActivity.map Prod.fst).filter (fun d => startsWithYearKey d year))
  match activeDates with
  | [] => ⟨0, 0, []⟩
  | d0 :: rest =>
    let w := streakWalk rest d0 1 1 0 1 0 0
    let maxStreakDays := (activeDates.drop w.2.1).take (w.2.2 - w.2.1 + 1)
    let yesterday := prevDay today
    let currentStreak :=
      if hasKey dailyActivity today then countStreakBackwards dailyActivity today
      else if hasKey dailyActivity yesterday then countStreakBackwards dailyActivity yesterday
      else 0
    ⟨w.1, currentStreak, maxStreakDays⟩

/-- `findMostActiveDay` (stats.ts lines 319-349): the first date whose
    count strictly exceeds all earlier maxima; `null` when the map is empty
    or every count is zero (the sentinel empty `maxDate` is never replaced
    by a zero count).  The derived display string is omitted as pure
    formatting. -/
def findMostActiveDay (dailyActivity : List (CalDate × Nat)) :
    Option (CalDate × Nat) :=
  if dailyActivity.isEmpty then none
  else
    let r := dailyActivity.foldl
      (fun (acc : Option CalDate × Nat) kv =>
        if acc.2 < kv.2 then (some kv.1, kv.2) else acc)
      (none, 0)
    match r.1 with
    | none => none
    | some d => some (d, r.2)

/-- One step of the argmax loops of the distribution builders: running max
    with a strict comparison, so the first index attaining the maximum
    wins.  The accumulator is (next index, best index, best count). -/
def argmaxStep (acc : Nat × Nat × Nat) (c : Nat) : Nat × Nat × Nat :=
  if acc.2.2 < c then (acc.1 + 1, acc.1, c) else (acc.1 + 1, acc.2.1, acc.2.2)

/-- The shared argmax loop of the distribution builders. -/
def argmaxFirst (counts : List Nat) : Nat × Nat :=
  let r := counts.foldl argmaxStep (0, 0, 0)
  (r.2.1, r.2.2)

structure WeekdayActivity where
  counts : List Nat
  mostActiveDay : Nat
  mostActiveDayName : String
  maxCount : Nat
deriving DecidableEq

def WEEKDAY_NAMES_FULL : List String :=
  ["Sunday", "Monday", "Tuesday", "Wednesday", "Thursday", "Friday", "Saturday"]

/-- `buildWeekdayActivity` (stats.ts lines 351-369). -/
def buildWeekdayActivity (counts : List Nat) : WeekdayActivity :=
  let r := argmaxFirst counts
  ⟨counts, r.1, WEEKDAY_NAMES_FULL.getD r.1 "", r.2⟩

structure MonthlyActivity where
  counts : List Nat
  mostActiveMonth : Nat
  mostActiveMonthName : String
  maxCount : Nat
deriving DecidableEq

def MONTH_NAMES_FULL : List String :=
  ["January", "February", "March", "April", "May", "June", "July", "August",
    "September", "October", "November", "December"]

/-- Modelled from the spec: the monthly-distribution computation is absent
    from the provided `src/stats.ts` — only the `MonthlyActivity`
    declaration in the types file (with its required `monthlyActivity`
    snapshot field) and the README's monthly-bar-chart feature exist.  Per
    spec §4.3 it mirrors the weekday distribution: a "fixed ... 12-bucket
    array indexed by calendar month, each bucket summing event counts; the
    bucket with the highest count is flagged as most-active (first index
    wins ties)". -/
def buildMonthlyActivity (counts : List Nat) : MonthlyActivity :=
  let r := argmaxFirst counts
  ⟨counts, r.1, MONTH_NAMES_FULL.getD r.1 "", r.2⟩

/-- `findFirstActivityDate` (stats.ts lines 237-241): the earliest key of
    the map (string sort), parsed at UTC midnight, else "now". -/
def findFirstActivityDate (dailyActivity : List (CalDate × Nat)) (now : Timestamp) :
    Timestamp :=
  match jsSortBy CalDate.le (dailyActivity.map Prod.fst) with
  | [] => now
  | d :: _ => ⟨d, 0⟩

/-! ## The snapshot and `calculateStats` -/

/-- `ClaudeCodeStats` (types): the final statistics snapshot.  Scalar token
    totals are integers because the drift adjustment can push a component
    negative; `mostActiveDay` keeps date and count (the display string is
    pure formatting). -/
structure ClaudeCodeStats where
  year : Int
  firstSessionDate : Timestamp
  daysSinceFirstSession : Int
  totalSessions : Nat
  totalMessages : Nat
  totalProjects : Nat
  totalInputTokens : ℤ
  totalOutputTokens : ℤ
  totalTokens : ℤ
  totalCacheReadTokens : ℤ
  totalCacheWriteTokens : ℤ
  cacheHitRate : ℚ
  totalWebSearchRequests : Nat
  totalToolCalls : Nat
  peakContextWindow : Nat
  totalCost : ℚ
  hasUsageCost : Bool
  topModels : List ModelStats
  topProviders : List ProviderStats
  maxStreak : Nat
  currentStreak : Nat
  maxStreakDays : List CalDate
  dailyActivity : List (CalDate × Nat)
  mostActiveDay : Option (CalDate × Nat)
  weekdayActivity : WeekdayActivity
  monthlyActivity : MonthlyActivity
deriving DecidableEq

/-- Top-3 model selection (stats.ts lines 165-171): stable sort descending
    by count, slice, then fill in percentages against the final merged
    total. -/
def topModelsOf (m : MergeState) : List ModelStats :=
  ((jsSortBy (fun a b => b.count ≤ a.count) m.modelStats).take 3).map
    (fun model => { model with percentage :=
      if 0 < m.totalTokens then (model.count : ℚ) / (m.totalTokens : ℚ) * 100 else 0 })

/-- Top-3 provider selection (stats.ts lines 173-181). -/
def topProvidersOf (ext : Externals) (m : MergeState) : List ProviderStats :=
  ((jsSortBy (fun a b => b.2 ≤ a.2) m.providerCounts).take 3).map
    (fun kv => ⟨kv.1, ext.getProviderDisplayName kv.1, kv.2,
      if 0 < m.totalTokens then (kv.2 : ℚ) / (m.totalTokens : ℚ) * 100 else 0⟩)

/-- `calculateStats` (stats.ts lines 6-225): the stats merger.  `now` is
    `Date.now()`; `totalProjects` abstracts `collectClaudeProjects`; the
    usage summary and cache are the outputs of the reducer and the cache
    reader. -/
def calculateStats (year : Int) (now : Timestamp) (ext : Externals)
    (statsCache : ClaudeStatsCache) (totalProjects : Nat)
    (usageSummary : ClaudeUsageSummary) : ClaudeCodeStats :=
  let p := dailyPhase year statsCache usageSummary
  let m := mergeLoopState year ext statsCache usageSummary
  let totalCost := usageSummary.totalCostUSD
  let topModels := topModelsOf m
  let topProviders := topProvidersOf ext m
  let streaks := calculateStreaks p.dailyActivity year now.date
  let cacheDenominator := m.totalCacheReadTokens + m.totalCacheWriteTokens
  let cacheHitRate : ℚ :=
    if 0 < cacheDenominator then
      (m.totalCacheReadTokens : ℚ) / (cacheDenominator : ℚ) * 100
    else 0
  let firstSessionDate :=
    match usageSummary.firstTimestamp with
    | some t => t
    | none =>
      match statsCache.firstSessionDate with
      | some t => t
      | none => findFirstActivityDate p.dailyActivity now
  { year := year
    firstSessionDate := firstSessionDate
    daysSinceFirstSession := (now.epochMs - firstSessionDate.epochMs) / 86400000
    totalSessions := p.totalSessions
    totalMessages := p.totalMessages
    totalProjects := totalProjects
    totalInputTokens := m.totalInputTokens
    totalOutputTokens := m.totalOutputTokens
    totalTokens := m.totalTokens
    totalCacheReadTokens := m.totalCacheReadTokens
    totalCacheWriteTokens := m.totalCacheWriteTokens
    cacheHitRate := cacheHitRate
    totalWebSearchRequests := m.totalWebSearchRequests
    totalToolCalls := p.totalToolCalls
    peakContextWindow := m.peakContextWindow
    totalCost := totalCost
    hasUsageCost := decide (0 < totalCost)
    topModels := topModels
    topProviders := topProviders
    maxStreak := streaks.maxStreak
    currentStreak := streaks.currentStreak
    maxStreakDays := streaks.maxStreakDays
    dailyActivity := p.dailyActivity
    mostActiveDay := findMostActiveDay p.dailyActivity
    weekdayActivity := buildWeekdayActivity p.weekdayCounts
    monthlyActivity := buildMonthlyActivity p.monthlyCounts }

/-! ## Shared helper lemmas -/

/-- The pricing stage never touches the dedup set. -/
theorem applyPricing_processedHashes (pricing : String → Option ModelPricing)
    (model : String) (input output cacheCreate cacheRead : Nat) (s : CollectorState) :
    (applyPricing pricing model input output cacheCreate cacheRead s).processedHashes =
      s.processedHashes := by
  unfold applyPricing
  cases hc : lookupAssoc s.pricingCache model with
  | none => cases pricing model <;> rfl
  | some p => cases p <;> rfl

/-- The usage-block stage never touches the dedup set. -/
theorem processUsage_processedHashes (pricing : String → Option ModelPricing)
    (hasCost : Bool) (s : CollectorState) (e : RawEntry) :
    (processUsage pricing hasCost s e).processedHashes = s.processedHashes := by
  unfold processUsage
  cases e.message.bind RawMessage.usage with
  | none => rfl
  | some u =>
    dsimp only
    cases e.message.bind RawMessage.model with
    | none => rfl
    | some model =>
      dsimp only
      split
      · split
        · rw [applyPricing_processedHashes]
        · rfl
      · rfl

/-- Nothing after the dedup gate touches the dedup set. -/
theorem processAfterDedup_processedHashes (year : Int)
    (pricing : String → Option ModelPricing) (s : CollectorState) (e : RawEntry) :
    (processAfterDedup year pricing s e).processedHashes = s.processedHashes := by
  unfold processAfterDedup
  cases e.timestamp with
  | none => rfl
  | some ts =>
    dsimp only
    split
    · rfl
    · rw [processUsage_processedHashes]
      cases e.costUSD <;> cases e.sessionId <;> dsimp only <;> repeat' split <;> rfl

/-- Whether a record's timestamp parses and falls in the requested year. -/
def entryInYear (year : Int) (e : RawEntry) : Bool :=
  match e.timestamp with
  | some ts => ts.date.year == year
  | none => false

/-- A record whose timestamp is missing, unparseable or outside the
    requested year is rejected before any accumulation. -/
theorem processAfterDedup_of_notInYear {year : Int}
    {pricing : String → Option ModelPricing} {s : CollectorState} {e : RawEntry}
    (h : entryInYear year e = false) :
    processAfterDedup year pricing s e = s := by
  unfold processAfterDedup
  cases hts : e.timestamp with
  | none => rfl
  | some ts =>
    have hy : ¬ ts.date.year = year := by
      simpa [entryInYear, hts] using h
    simp [hy]

/-- An out-of-year record can change nothing but the dedup set. -/
theorem processStep_of_notInYear {year : Int}
    {pricing : String → Option ModelPricing} {s : CollectorState} {e : RawEntry}
    (h : entryInYear year e = false) :
    processStep year pricing s e =
      { s with processedHashes := (processStep year pricing s e).processedHashes } := by
  unfold processStep
  cases hh : createUniqueHash e with
  | none => rw [processAfterDedup_of_notInYear h]
  | some x =>
    by_cases hmem : x ∈ s.processedHashes
    · simp only [if_pos hmem]
    · simp only [if_neg hmem]
      rw [processAfterDedup_of_notInYear h]

/-- The summary does not expose the dedup set. -/
theorem summaryOfState_update_hashes (s : CollectorState) (l : List String) :
    summaryOfState { s with processedHashes := l } = summaryOfState s := rfl

/-- A run consisting only of out-of-year records accumulates nothing. -/
theorem foldl_summary_of_notInYear (year : Int) (pricing : String → Option ModelPricing) :
    ∀ (entries : List RawEntry) (s : CollectorState),
      (∀ e ∈ entries, entryInYear year e = false) →
      summaryOfState (entries.foldl (processStep year pricing) s) = summaryOfState s := by
  intro entries
  induction entries with
  | nil => intro s _; rfl
  | cons e l ih =>
    intro s h
    rw [List.foldl_cons]
    rw [ih (processStep year pricing s e) (fun x hx => h x (List.mem_cons_of_mem _ hx))]
    rw [processStep_of_notInYear (h e (List.mem_cons_self e l))]
    rfl

/-- A scan over only out-of-year records yields the zero-valued summary. -/
theorem collect_of_notInYear (year : Int) (pricing : String → Option ModelPricing)
    (entries : List RawEntry) (h : ∀ e ∈ entries, entryInYear year e = false) :
    collectClaudeUsageSummary year pricing entries = emptyUsageSummary := by
  unfold collectClaudeUsageSummary
  rw [foldl_summary_of_notInYear year pricing entries initialCollectorState h]
  rfl

/-! ## C1: apportionment exactness -/

/-- The drift adjustment forces the components to sum to the aggregate. -/
theorem adjustDrift_sum (tokens : Nat) (i o cr cw : ℤ) :
    (adjustDrift tokens i o cr cw).input + (adjustDrift tokens i o cr cw).output +
      (adjustDrift tokens i o cr cw).cacheRead + (adjustDrift tokens i o cr cw).cacheWrite =
      (tokens : ℤ) := by
  simp only [adjustDrift]
  split <;> dsimp only <;> omega

/-- C1: for every model whose aggregate token count is apportioned using a
    per-model usage record whose four fields have a positive sum, the four
    derived components (input, output, cache-read, cache-write) sum exactly
    to the original aggregate: the algorithm computes the ratio
    `aggregate / usage-sum`, rounds each scaled field to the nearest
    integer, and adjusts the input component by the signed rounding drift. -/
theorem apportionment_components_sum_exact
    (tokens usageInput usageOutput usageCacheRead usageCacheCreate : Nat)
    (h : 0 < usageInput + usageOutput + usageCacheRead + usageCacheCreate) :
    (apportion tokens usageInput usageOutput usageCacheRead usageCacheCreate).input +
      (apportion tokens usageInput usageOutput usageCacheRead usageCacheCreate).output +
      (apportion tokens usageInput usageOutput usageCacheRead usageCacheCreate).cacheRead +
      (apportion tokens usageInput usageOutput usageCacheRead usageCacheCreate).cacheWrite =
      (tokens : ℤ) := by
  simp only [apportion, if_pos h]
  exact adjustDrift_sum tokens _ _ _ _

/-- Witness for C1 at a concrete input (aggregate 1 against usage record
    (0, 1, 1, 0), where rounding drifts and the input component absorbs
    the difference, going negative). -/
theorem apportionment_components_sum_exact_witness :
    0 < 0 + 1 + 1 + 0 ∧
      (apportion 1 0 1 1 0).input + (apportion 1 0 1 1 0).output +
        (apportion 1 0 1 1 0).cacheRead + (apportion 1 0 1 1 0).cacheWrite = (1 : ℤ) :=
  ⟨by decide, apportionment_components_sum_exact 1 0 1 1 0 (by decide)⟩

/-! ## C5: max-streak computation -/

/-- The spec's streak example, with the keys deliberately out of insertion
    order and an out-of-year day present. -/
def exampleActivity : List (CalDate × Nat) :=
  [(⟨2025, 1, 12⟩, 1), (⟨2025, 1, 1⟩, 2), (⟨2025, 1, 10⟩, 1), (⟨2024, 12, 31⟩, 5),
    (⟨2025, 1, 2⟩, 1), (⟨2025, 1, 13⟩, 3), (⟨2025, 1, 3⟩, 1), (⟨2025, 1, 11⟩, 1)]

/-- Two runs of equal length two: the recorded longest must stay the
    first. -/
def tieActivity : List (CalDate × Nat) :=
  [(⟨2025, 1, 1⟩, 1), (⟨2025, 1, 2⟩, 1), (⟨2025, 1, 10⟩, 1), (⟨2025, 1, 11⟩, 1)]

/-- C5: the max-streak walk over the year-filtered daily-activity map sorts
    active dates ascending and walks consecutive pairs, where a gap of one
    day extends the run and any other gap resets it, first-found run
    winning ties.  On activity 2025-01-01..03 and 2025-01-10..13 it yields
    maxStreak 4 with maxStreakDays 2025-01-10..13 (the out-of-year
    2024-12-31 day is ignored); on two equal runs the earlier one is
    kept. -/
theorem max_streak_example_and_tiebreak :
    ((calculateStreaks exampleActivity 2025 ⟨2026, 1, 1⟩).maxStreak = 4 ∧
      (calculateStreaks exampleActivity 2025 ⟨2026, 1, 1⟩).maxStreakDays =
        [⟨2025, 1, 10⟩, ⟨2025, 1, 11⟩, ⟨2025, 1, 12⟩, ⟨2025, 1, 13⟩]) ∧
    ((calculateStreaks tieActivity 2025 ⟨2026, 1, 1⟩).maxStreak = 2 ∧
      (calculateStreaks tieActivity 2025 ⟨2026, 1, 1⟩).maxStreakDays =
        [⟨2025, 1, 1⟩, ⟨2025, 1, 2⟩]) := by
  decide

/-! ## C6: missing data sources -/

/-- Counterexample to C6 as stated: with no `stats-cache.json` anywhere on
    the file system, the cache reader raises (an `Except.error`) instead of
    surfacing an empty result. -/
theorem missing_cache_file_raises_error :
    loadClaudeStatsCache none (fun _ => false)
      (fun _ => CacheFileContent.valid emptyCache) =
      Except.error "Claude data not found" := rfl

/-- C6 (amended): a missing raw-log data source degrades to an empty
    result — the source locator returns `none` rather than raising and a
    scan with no records yields the zero-valued summary — but the cache
    reader raises "Claude data not found" when no directory contains a
    `stats-cache.json`, rather than returning an empty cache. -/
theorem missing_data_source_amended :
    (∀ (envConfigDir : Option String) (pathExists : String → Bool)
        (readCacheFile : String → CacheFileContent),
      resolveClaudeDataPath envConfigDir pathExists = none →
      loadClaudeStatsCache envConfigDir pathExists readCacheFile =
        Except.error "Claude data not found") ∧
    (∀ envConfigDir : Option String,
      resolveClaudeDataPath envConfigDir (fun _ => false) = none) ∧
    (∀ (year : Int) (pricing : String → Option ModelPricing),
      collectClaudeUsageSummary year pricing [] = emptyUsageSummary) := by
  refine ⟨?_, ?_, ?_⟩
  · intro env pathExists readCacheFile h
    unfold loadClaudeStatsCache
    rw [h]
  · intro env
    simp [resolveClaudeDataPath]
  · intro year pricing
    rfl

/-- Witness for C6 (amended) at a concrete environment with no cache
    file. -/
theorem missing_data_source_amended_witness :
    loadClaudeStatsCache (some "/tmp/claude") (fun _ => false)
      (fun _ => CacheFileContent.valid emptyCache) =
      Except.error "Claude data not found" :=
  missing_data_source_amended.1 (some "/tmp/claude") (fun _ => false)
    (fun _ => CacheFileContent.valid emptyCache) rfl

/-! ## C10: total cost comes from the live summary only -/

/-- C10: the snapshot's `totalCost` is exactly the live summary's
    `totalCostUSD` (explicit record costs plus memoized pricing estimates),
    for every cache — so the cache's per-model `costUSD` values are never
    incorporated — and when no raw log event falls in the requested year
    the cost is 0 and `hasUsageCost` is false even if the cache records
    nonzero costs. -/
theorem total_cost_from_live_summary_only (year : Int) (now : Timestamp) (ext : Externals)
    (statsCache : ClaudeStatsCache) (totalProjects : Nat) (us : ClaudeUsageSummary) :
    (calculateStats year now ext statsCache totalProjects us).totalCost = us.totalCostUSD ∧
    (calculateStats year now ext statsCache totalProjects us).hasUsageCost =
      decide (0 < us.totalCostUSD) ∧
    ∀ (pricing : String → Option ModelPricing) (entries : List RawEntry),
      (∀ e ∈ entries, entryInYear year e = false) →
      (collectClaudeUsageSummary year pricing entries).totalCostUSD = 0 ∧
      (calculateStats year now ext statsCache totalProjects
        (collectClaudeUsageSummary year pricing entries)).totalCost = 0 ∧
      (calculateStats year now ext statsCache totalProjects
        (collectClaudeUsageSummary year pricing entries)).hasUsageCost = false := by
  refine ⟨rfl, rfl, ?_⟩
  intro pricing entries h
  rw [collect_of_notInYear year pricing entries h]
  exact ⟨rfl, rfl, rfl⟩

/-- A record dated 2024, outside the requested year 2025. -/
def outOfYearEntry : RawEntry :=
  ⟨some ⟨⟨2024, 12, 31⟩, 0⟩, some "s0", some ⟨some "m0", some "model-a",
    some ⟨some 7, some 8, some 9, some 10⟩⟩, some "r0", some 5⟩

/-- A cache recording a nonzero per-model cost. -/
def cacheWithCost : ClaudeStatsCache :=
  ⟨[⟨some ⟨2025, 1, 5⟩, some 3, some 1, some 0⟩], [],
    [("model-a", ⟨some 10, some 5, none, none, some 2, some (3/2), some 200000⟩)], none⟩

def extDefault : Externals := ⟨fun _ => none, fun m => m, fun p => p⟩

def nowTs : Timestamp := ⟨⟨2026, 1, 1⟩, 0⟩

/-- Witness for C10: a 2024-only scan merged against a cache with a nonzero
    per-model cost yields zero cost and `hasUsageCost = false`. -/
theorem total_cost_from_live_summary_only_witness :
    (collectClaudeUsageSummary 2025 (fun _ => none) [outOfYearEntry]).totalCostUSD = 0 ∧
    (calculateStats 2025 nowTs extDefault cacheWithCost 0
      (collectClaudeUsageSummary 2025 (fun _ => none) [outOfYearEntry])).totalCost = 0 ∧
    (calculateStats 2025 nowTs extDefault cacheWithCost 0
      (collectClaudeUsageSummary 2025 (fun _ => none) [outOfYearEntry])).hasUsageCost = false :=
  (total_cost_from_live_summary_only 2025 nowTs extDefault cacheWithCost 0
    emptyUsageSummary).2.2 (fun _ => none) [outOfYearEntry] (by decide)

/-! ## C4: dedup idempotence -/

/-- A step never removes a recorded hash. -/
theorem processStep_mem_processedHashes (year : Int)
    (pricing : String → Option ModelPricing) (s : CollectorState) (e : RawEntry)
    (x : String) (hx : x ∈ s.processedHashes) :
    x ∈ (processStep year pricing s e).processedHashes := by
  unfold processStep
  cases hh : createUniqueHash e with
  | none => rw [processAfterDedup_processedHashes]; exact hx
  | some h =>
    by_cases hmem : h ∈ s.processedHashes
    · simp only [if_pos hmem]; exact hx
    · simp only [if_neg hmem]
      rw [processAfterDedup_processedHashes]
      exact List.mem_append_left _ hx

/-- After a record with an identity key is processed, its key is
    recorded. -/
theorem processStep_hash_mem (year : Int) (pricing : String → Option ModelPricing)
    (s : CollectorState) (e : RawEntry) (x : String)
    (hh : createUniqueHash e = some x) :
    x ∈ (processStep year pricing s e).processedHashes := by
  unfold processStep
  rw [hh]
  by_cases hmem : x ∈ s.processedHashes
  · simp only [if_pos hmem]; exact hmem
  · simp only [if_neg hmem]
    rw [processAfterDedup_processedHashes]
    simp

/-- A record whose identity key was already seen is discarded whole. -/
theorem processStep_of_seen (year : Int) (pricing : String → Option ModelPricing)
    (s : CollectorState) (e : RawEntry) (x : String)
    (hh : createUniqueHash e = some x) (hmem : x ∈ s.processedHashes) :
    processStep year pricing s e = s := by
  unfold processStep
  rw [hh]
  exact if_pos hmem

/-- Recorded hashes survive a whole scan. -/
theorem foldl_mem_processedHashes (year : Int) (pricing : String → Option ModelPricing) :
    ∀ (l : List RawEntry) (s : CollectorState) (x : String),
      x ∈ s.processedHashes →
      x ∈ (l.foldl (processStep year pricing) s).processedHashes := by
  intro l
  induction l with
  | nil => intro s x hx; exact hx
  | cons e l ih =>
    intro s x hx
    exact ih _ x (processStep_mem_processedHashes year pricing s e x hx)

/-- Every identity key occurring in a scanned list ends up recorded. -/
theorem foldl_adds_hash (year : Int) (pricing : String → Option ModelPricing) :
    ∀ (l : List RawEntry) (s : CollectorState) (e : RawEntry) (x : String),
      e ∈ l → createUniqueHash e = some x →
      x ∈ (l.foldl (processStep year pricing) s).processedHashes := by
  intro l
  induction l with
  | nil => intro s e x he; exact absurd he (List.not_mem_nil e)
  | cons a l ih =>
    intro s e x he hx
    rcases List.mem_cons.mp he with rfl | he
    · exact foldl_mem_processedHashes year pricing l _ x
        (processStep_hash_mem year pricing s e x hx)
    · exact ih _ e x he hx

/-- Scanning a list whose every record's key is already recorded is a
    no-op. -/
theorem foldl_of_all_seen (year : Int) (pricing : String → Option ModelPricing) :
    ∀ (l : List RawEntry) (s : CollectorState),
      (∀ e ∈ l, ∃ x, createUniqueHash e = some x ∧ x ∈ s.processedHashes) →
      l.foldl (processStep year pricing) s = s := by
  intro l
  induction l with
  | nil => intro s _; rfl
  | cons e l ih =>
    intro s h
    obtain ⟨x, hx, hmem⟩ := h e (List.mem_cons_self e l)
    rw [List.foldl_cons, processStep_of_seen year pricing s e x hx hmem]
    exact ih s (fun a ha => h a (List.mem_cons_of_mem _ ha))

/-- C4: processing the same list of records twice in one run (simulating
    overlapping roots) yields exactly the same usage summary as processing
    it once, provided every record carries a message identifier and a
    request identifier (an identity key). -/
theorem dedup_idempotent (year : Int) (pricing : String → Option ModelPricing)
    (entries : List RawEntry) (h : ∀ e ∈ entries, (createUniqueHash e).isSome) :
    collectClaudeUsageSummary year pricing (entries ++ entries) =
      collectClaudeUsageSummary year pricing entries := by
  unfold collectClaudeUsageSummary
  rw [List.foldl_append]
  congr 1
  apply foldl_of_all_seen
  intro e he
  obtain ⟨x, hx⟩ := Option.isSome_iff_exists.mp (h e he)
  exact ⟨x, hx, foldl_adds_hash year pricing entries initialCollectorState e x he hx⟩

def dedupEntry1 : RawEntry :=
  ⟨some ⟨⟨2025, 3, 1⟩, 0⟩, some "s1", some ⟨some "m1", some "model-a",
    some ⟨some 10, some 2, some 3, some 4⟩⟩, some "r1", none⟩

def dedupEntry2 : RawEntry :=
  ⟨some ⟨⟨2025, 3, 2⟩, 7200000⟩, some "s2", some ⟨some "m2", some "model-b",
    some ⟨some 1, some 1, some 0, some 0⟩⟩, some "r2", some 2⟩

/-- Witness for C4 on two concrete records fed twice. -/
theorem dedup_idempotent_witness :
    (∀ e ∈ [dedupEntry1, dedupEntry2], (createUniqueHash e).isSome) ∧
      collectClaudeUsageSummary 2025 (fun _ => none)
          ([dedupEntry1, dedupEntry2] ++ [dedupEntry1, dedupEntry2]) =
        collectClaudeUsageSummary 2025 (fun _ => none) [dedupEntry1, dedupEntry2] :=
  ⟨by decide, dedup_idempotent 2025 (fun _ => none) [dedupEntry1, dedupEntry2] (by decide)⟩

/-! ## C8: zero-total records still create a model entry -/

/-- A record with a model identifier whose usage block sums to zero. -/
def zeroUsageEntry : RawEntry :=
  ⟨some ⟨⟨2025, 5, 1⟩, 0⟩, none, some ⟨some "mid", some "model-a",
    some ⟨some 0, some 0, some 0, some 0⟩⟩, some "r", none⟩

/-- Counterexample to C8 as stated: a record with a model identifier and a
    zero per-record token total nevertheless adds a (zero-valued) entry to
    the per-model token map — the positivity check guards only the pricing
    estimate, not the `Map.set`. -/
theorem zero_total_adds_model_entry :
    (collectClaudeUsageSummary 2025 (fun _ => none) [zeroUsageEntry]).modelTokenTotals =
      [("model-a", 0)] := by decide

/-- The pricing stage never touches the per-model token map. -/
theorem applyPricing_modelTokenTotals (pricing : String → Option ModelPricing)
    (model : String) (input output cacheCreate cacheRead : Nat) (s : CollectorState) :
    (applyPricing pricing model input output cacheCreate cacheRead s).modelTokenTotals =
      s.modelTokenTotals := by
  unfold applyPricing
  cases hc : lookupAssoc s.pricingCache model with
  | none => cases pricing model <;> rfl
  | some p => cases p <;> rfl

/-- The usage stage adds the (possibly zero) per-record total to the
    model's running total whenever a non-blank model identifier is
    present. -/
theorem processUsage_modelTokenTotals (pricing : String → Option ModelPricing)
    (hasCost : Bool) (s : CollectorState) (e : RawEntry) (u : RawUsage) (model : String)
    (husage : e.message.bind RawMessage.usage = some u)
    (hmodel : e.message.bind RawMessage.model = some model)
    (htrim : jsTrim model ≠ "") :
    (processUsage pricing hasCost s e).modelTokenTotals =
      addToCount s.modelTokenTotals model (entryTotalOf u) := by
  unfold processUsage
  rw [husage]
  dsimp only
  rw [hmodel]
  dsimp only
  rw [if_pos htrim]
  split
  · rw [applyPricing_modelTokenTotals]; rfl
  · rfl

/-- After the dedup gate, a non-blank model identifier always updates the
    model map by the per-record total. -/
theorem processAfterDedup_modelTokenTotals (year : Int)
    (pricing : String → Option ModelPricing) (s : CollectorState) (e : RawEntry)
    (ts : Timestamp) (u : RawUsage) (model : String)
    (hts : e.timestamp = some ts) (hyear : ts.date.year = year)
    (husage : e.message.bind RawMessage.usage = some u)
    (hmodel : e.message.bind RawMessage.model = some model)
    (htrim : jsTrim model ≠ "") :
    (processAfterDedup year pricing s e).modelTokenTotals =
      addToCount s.modelTokenTotals model (entryTotalOf u) := by
  unfold processAfterDedup
  rw [hts]
  dsimp only
  rw [if_neg (fun hne => hne hyear)]
  rw [processUsage_modelTokenTotals pricing _ _ e u model husage hmodel htrim]
  cases e.costUSD <;> cases e.sessionId <;> dsimp only <;> repeat' split <;> rfl

/-- C8 (amended): during reduction of a not-yet-seen in-year record with a
    usage block and a non-empty, non-whitespace model identifier, the
    per-record token total is added to that model's running total
    regardless of whether it is positive; in particular a record with a
    model identifier and a zero total still creates a zero-valued entry in
    the per-model token map.  The positivity test gates only the pricing
    estimate. -/
theorem model_total_added_regardless_of_positivity (year : Int)
    (pricing : String → Option ModelPricing) (s : CollectorState) (e : RawEntry)
    (ts : Timestamp) (u : RawUsage) (model : String)
    (hts : e.timestamp = some ts) (hyear : ts.date.year = year)
    (hfresh : ∀ x, createUniqueHash e = some x → x ∉ s.processedHashes)
    (husage : e.message.bind RawMessage.usage = some u)
    (hmodel : e.message.bind RawMessage.model = some model)
    (htrim : jsTrim model ≠ "") :
    (processStep year pricing s e).modelTokenTotals =
      addToCount s.modelTokenTotals model (entryTotalOf u) := by
  unfold processStep
  cases hh : createUniqueHash e with
  | none =>
    exact processAfterDedup_modelTokenTotals year pricing s e ts u model hts hyear
      husage hmodel htrim
  | some x =>
    dsimp only
    rw [if_neg (hfresh x hh)]
    exact processAfterDedup_modelTokenTotals year pricing _ e ts u model hts hyear
      husage hmodel htrim

/-- Witness for C8 (amended) at the zero-total record: the map gains the
    entry `("model-a", 0)`. -/
theorem model_total_added_regardless_of_positivity_witness :
    (processStep 2025 (fun _ => none) initialCollectorState zeroUsageEntry).modelTokenTotals =
      addToCount initialCollectorState.modelTokenTotals "model-a"
        (entryTotalOf ⟨some 0, some 0, some 0, some 0⟩) :=
  model_total_added_regardless_of_positivity 2025 (fun _ => none) initialCollectorState
    zeroUsageEntry ⟨⟨2025, 5, 1⟩, 0⟩ ⟨some 0, some 0, some 0, some 0⟩ "model-a"
    rfl rfl (by intro x hx; simp [initialCollectorState]) rfl rfl (by decide)

/-! ## C2: live token scalars are authoritative -/

/-- The five scalar token totals of the merge loop, in snapshot order. -/
def scalarTotalsOf (s : MergeState) : ℤ × ℤ × ℤ × ℤ × ℤ :=
  (s.totalTokens, s.totalInputTokens, s.totalOutputTokens,
    s.totalCacheReadTokens, s.totalCacheWriteTokens)

def add5 (a b : ℤ × ℤ × ℤ × ℤ × ℤ) : ℤ × ℤ × ℤ × ℤ × ℤ :=
  (a.1 + b.1, a.2.1 + b.2.1, a.2.2.1 + b.2.2.1, a.2.2.2.1 + b.2.2.2.1, a.2.2.2.2 + b.2.2.2.2)

/-- The components one model contributes: apportioned against its usage
    record when one exists, else all tokens as input. -/
def apportionedComponents (modelUsage : List (String × ModelUsageRecord))
    (entry : String × Nat) : TokenComponents :=
  match lookupAssoc modelUsage entry.1 with
  | some u => apportion entry.2 (u.inputTokens.getD 0) (u.outputTokens.getD 0)
      (u.cacheReadInputTokens.getD 0) (u.cacheCreationInputTokens.getD 0)
  | none => ⟨(entry.2 : ℤ), 0, 0, 0⟩

/-- The scalar-total contribution of one per-model entry when the loop
    accumulates (zero-token models are skipped). -/
def apportionedDelta (modelUsage : List (String × ModelUsageRecord))
    (entry : String × Nat) : ℤ × ℤ × ℤ × ℤ × ℤ :=
  if entry.2 = 0 then (0, 0, 0, 0, 0)
  else
    let c := apportionedComponents modelUsage entry
    ((entry.2 : ℤ), c.input, c.output, c.cacheRead, c.cacheWrite)

/-- Accumulation of the per-model apportioned components. -/
def accumApportioned (modelUsage : List (String × ModelUsageRecord)) :
    List (String × Nat) → ℤ × ℤ × ℤ × ℤ × ℤ
  | [] => (0, 0, 0, 0, 0)
  | entry :: rest => add5 (apportionedDelta modelUsage entry) (accumApportioned modelUsage rest)

theorem add5_zero_right (a : ℤ × ℤ × ℤ × ℤ × ℤ) : add5 a (0, 0, 0, 0, 0) = a := by
  simp [add5, Prod.ext_iff]

theorem add5_zero_left (a : ℤ × ℤ × ℤ × ℤ × ℤ) : add5 (0, 0, 0, 0, 0) a = a := by
  simp [add5, Prod.ext_iff]

theorem add5_assoc (a b c : ℤ × ℤ × ℤ × ℤ × ℤ) :
    add5 (add5 a b) c = add5 a (add5 b c) := by
  simp only [add5, Prod.ext_iff]
  omega

/-- With live scalars present, a merge-loop step never changes them. -/
theorem mergeModelStep_totals_of_hasTokens (ext : Externals)
    (modelUsage : List (String × ModelUsageRecord)) (s : MergeState) (entry : String × Nat) :
    scalarTotalsOf (mergeModelStep ext true modelUsage s entry) = scalarTotalsOf s := by
  unfold mergeModelStep finishModel
  dsimp only
  split
  · rfl
  · cases lookupAssoc modelUsage entry.1 <;> rfl

/-- With live scalars present, the whole merge loop never changes them. -/
theorem mergeLoop_totals_of_hasTokens (ext : Externals)
    (modelUsage : List (String × ModelUsageRecord)) :
    ∀ (l : List (String × Nat)) (s : MergeState),
      scalarTotalsOf (l.foldl (mergeModelStep ext true modelUsage) s) = scalarTotalsOf s := by
  intro l
  induction l with
  | nil => intro s; rfl
  | cons entry l ih =>
    intro s
    rw [List.foldl_cons, ih, mergeModelStep_totals_of_hasTokens]

/-- With no live scalars, one merge-loop step adds exactly the model's
    apportioned contribution. -/
theorem mergeModelStep_totals_of_noTokens (ext : Externals)
    (modelUsage : List (String × ModelUsageRecord)) (s : MergeState) (entry : String × Nat) :
    scalarTotalsOf (mergeModelStep ext false modelUsage s entry) =
      add5 (scalarTotalsOf s) (apportionedDelta modelUsage entry) := by
  unfold mergeModelStep finishModel apportionedDelta apportionedComponents
  dsimp only
  split
  · simp_all [scalarTotalsOf, add5, Prod.ext_iff]
  · cases lookupAssoc modelUsage entry.1 <;>
      simp_all [scalarTotalsOf, add5, Prod.ext_iff]

/-- With no live scalars, the merge loop accumulates exactly the
    apportioned per-model components. -/
theorem mergeLoop_totals_of_noTokens (ext : Externals)
    (modelUsage : List (String × ModelUsageRecord)) :
    ∀ (l : List (String × Nat)) (s : MergeState),
      scalarTotalsOf (l.foldl (mergeModelStep ext false modelUsage) s) =
        add5 (scalarTotalsOf s) (accumApportioned modelUsage l) := by
  intro l
  induction l with
  | nil => intro s; rw [accumApportioned, add5_zero_right]; rfl
  | cons entry l ih =>
    intro s
    rw [List.foldl_cons, ih, mergeModelStep_totals_of_noTokens, accumApportioned,
      add5_assoc]

/-- When the live summary reports no positive token scalar, all five are
    zero. -/
theorem hasUsageSummaryTokens_false_iff (us : ClaudeUsageSummary) :
    hasUsageSummaryTokens us = false ↔
      us.totalTokens = 0 ∧ us.totalInputTokens = 0 ∧ us.totalOutputTokens = 0 ∧
        us.totalCacheReadTokens = 0 ∧ us.totalCacheCreationTokens = 0 := by
  simp only [hasUsageSummaryTokens, Bool.or_eq_false_iff, decide_eq_false_iff_not]
  omega

/-- C2: if the live usage summary reports any nonzero token scalar, the
    snapshot's five scalar token totals equal the live scalars exactly and
    nothing from per-model apportionment is added on top; only when all
    five live scalars are zero are the scalar totals accumulated from the
    per-model apportioned components. -/
theorem live_scalars_authoritative (year : Int) (now : Timestamp) (ext : Externals)
    (statsCache : ClaudeStatsCache) (totalProjects : Nat) (us : ClaudeUsageSummary) :
    (hasUsageSummaryTokens us = true →
      (calculateStats year now ext statsCache totalProjects us).totalTokens = us.totalTokens ∧
      (calculateStats year now ext statsCache totalProjects us).totalInputTokens =
        us.totalInputTokens ∧
      (calculateStats year now ext statsCache totalProjects us).totalOutputTokens =
        us.totalOutputTokens ∧
      (calculateStats year now ext statsCache totalProjects us).totalCacheReadTokens =
        us.totalCacheReadTokens ∧
      (calculateStats year now ext statsCache totalProjects us).totalCacheWriteTokens =
        us.totalCacheCreationTokens) ∧
    (hasUsageSummaryTokens us = false →
      (us.totalTokens = 0 ∧ us.totalInputTokens = 0 ∧ us.totalOutputTokens = 0 ∧
        us.totalCacheReadTokens = 0 ∧ us.totalCacheCreationTokens = 0) ∧
      ((calculateStats year now ext statsCache totalProjects us).totalTokens,
        (calculateStats year now ext statsCache totalProjects us).totalInputTokens,
        (calculateStats year now ext statsCache totalProjects us).totalOutputTokens,
        (calculateStats year now ext statsCache totalProjects us).totalCacheReadTokens,
        (calculateStats year now ext statsCache totalProjects us).totalCacheWriteTokens) =
        accumApportioned statsCache.modelUsage (selectModelTokenTotals year statsCache us)) := by
  constructor
  · intro h
    have h5 : scalarTotalsOf (mergeLoopState year ext statsCache us) =
        scalarTotalsOf (initMergeState us) := by
      unfold mergeLoopState
      rw [h]
      exact mergeLoop_totals_of_hasTokens ext statsCache.modelUsage _ _
    have h5' := h5
    simp only [scalarTotalsOf, initMergeState, Prod.ext_iff] at h5'
    exact ⟨h5'.1, h5'.2.1, h5'.2.2.1, h5'.2.2.2.1, h5'.2.2.2.2⟩
  · intro h
    have hz := (hasUsageSummaryTokens_false_iff us).mp h
    constructor
    · exact hz
    · have h5 : scalarTotalsOf (mergeLoopState year ext statsCache us) =
          add5 (scalarTotalsOf (initMergeState us))
            (accumApportioned statsCache.modelUsage (selectModelTokenTotals year statsCache us)) := by
        unfold mergeLoopState
        rw [h]
        exact mergeLoop_totals_of_noTokens ext statsCache.modelUsage _ _
      have hinit : scalarTotalsOf (initMergeState us) = (0, 0, 0, 0, 0) := by
        simp [scalarTotalsOf, initMergeState, hz.1, hz.2.1, hz.2.2.1, hz.2.2.2.1, hz.2.2.2.2]
      rw [hinit, add5_zero_left] at h5
      exact h5

/-- A live summary with nonzero scalars and a per-model map. -/
def liveScalarSummary : ClaudeUsageSummary :=
  ⟨1, 2, 3, 4, 10, 0, [("model-a", 5)], none, [], 0, 0⟩

/-- Witness for C2: both branches at concrete inputs — a nonzero live
    summary keeps its scalars untouched, and the empty live summary gets
    its totals accumulated from the cache-derived per-model components. -/
theorem live_scalars_authoritative_witness :
    ((calculateStats 2025 nowTs extDefault cacheWithCost 0 liveScalarSummary).totalTokens =
        liveScalarSummary.totalTokens ∧
      (calculateStats 2025 nowTs extDefault cacheWithCost 0 liveScalarSummary).totalInputTokens =
        liveScalarSummary.totalInputTokens ∧
      (calculateStats 2025 nowTs extDefault cacheWithCost 0 liveScalarSummary).totalOutputTokens =
        liveScalarSummary.totalOutputTokens ∧
      (calculateStats 2025 nowTs extDefault cacheWithCost 0 liveScalarSummary).totalCacheReadTokens =
        liveScalarSummary.totalCacheReadTokens ∧
      (calculateStats 2025 nowTs extDefault cacheWithCost 0 liveScalarSummary).totalCacheWriteTokens =
        liveScalarSummary.totalCacheCreationTokens) ∧
    ((calculateStats 2025 nowTs extDefault cacheWithCost 0 emptyUsageSummary).totalTokens,
      (calculateStats 2025 nowTs extDefault cacheWithCost 0 emptyUsageSummary).totalInputTokens,
      (calculateStats 2025 nowTs extDefault cacheWithCost 0 emptyUsageSummary).totalOutputTokens,
      (calculateStats 2025 nowTs extDefault cacheWithCost 0 emptyUsageSummary).totalCacheReadTokens,
      (calculateStats 2025 nowTs extDefault cacheWithCost 0 emptyUsageSummary).totalCacheWriteTokens) =
      accumApportioned cacheWithCost.modelUsage
        (selectModelTokenTotals 2025 cacheWithCost emptyUsageSummary) :=
  ⟨(live_scalars_authoritative 2025 nowTs extDefault cacheWithCost 0 liveScalarSummary).1
      (by decide),
    ((live_scalars_authoritative 2025 nowTs extDefault cacheWithCost 0 emptyUsageSummary).2
      (by decide)).2⟩

/-! ## C7: percentage normalization -/

/-- A 2025 record carrying a model identifier. -/
def percEntry1 : RawEntry :=
  ⟨some ⟨⟨2025, 3, 1⟩, 0⟩, some "s1", some ⟨some "m1", some "model-a",
    some ⟨some 10, some 0, some 0, some 0⟩⟩, some "r1", none⟩

/-- A 2025 record with a usage block but no model identifier: its tokens
    count toward the live total but toward no model. -/
def percEntry2 : RawEntry :=
  ⟨some ⟨⟨2025, 3, 2⟩, 0⟩, some "s1", some ⟨some "m2", none,
    some ⟨some 10, some 0, some 0, some 0⟩⟩, some "r2", none⟩

/-- The live summary recomputed from the two records above. -/
def percSummary : ClaudeUsageSummary :=
  collectClaudeUsageSummary 2025 (fun _ => none) [percEntry1, percEntry2]

/-- Counterexample to C7 as stated: with one usage-bearing record lacking a
    model identifier, the full (unsliced) model set is the single model
    with 10 of the 20 total tokens, so the percentages sum to 50, not 100,
    although `totalTokens > 0`. -/
theorem percentage_sum_below_100_counterexample :
    (calculateStats 2025 nowTs extDefault emptyCache 0 percSummary).totalTokens = 20 ∧
    (mergeLoopState 2025 extDefault emptyCache percSummary).modelStats.length = 1 ∧
    ((calculateStats 2025 nowTs extDefault emptyCache 0 percSummary).topModels.map
      (fun md => (md.id, md.count))) = [("model-a", 10)] ∧
    ((calculateStats 2025 nowTs extDefault emptyCache 0 percSummary).topModels.map
      ModelStats.percentage).sum = 50 := by
  have hm : (mergeLoopState 2025 extDefault emptyCache percSummary).modelStats =
      [⟨"model-a", "model-a", "unknown", 10, 0⟩] := by decide
  have ht : (mergeLoopState 2025 extDefault emptyCache percSummary).totalTokens = 20 := by
    decide
  have htop : (calculateStats 2025 nowTs extDefault emptyCache 0 percSummary).topModels =
      topModelsOf (mergeLoopState 2025 extDefault emptyCache percSummary) := rfl
  refine ⟨ht, by rw [hm]; rfl, ?_, ?_⟩
  · rw [htop]
    unfold topModelsOf
    rw [hm, ht]
    norm_num [jsSortBy, insertSorted]
  · rw [htop]
    unfold topModelsOf
    rw [hm, ht]
    norm_num [jsSortBy, insertSorted]

/-- Every selected top model's percentage is computed against the final
    merged total. -/
theorem mem_topModelsOf (m : MergeState) (model : ModelStats)
    (hm : model ∈ topModelsOf m) :
    model.percentage =
      if 0 < m.totalTokens then (model.count : ℚ) / (m.totalTokens : ℚ) * 100 else 0 := by
  unfold topModelsOf at hm
  obtain ⟨md, hmd, rfl⟩ := List.mem_map.mp hm
  rfl

def modelStatsCountSum (l : List ModelStats) : ℤ :=
  (l.map fun md => (md.count : ℤ)).sum

/-- With no live scalars, each loop step keeps `totalTokens` equal to the
    sum of the pushed model counts. -/
theorem mergeModelStep_count_invariant (ext : Externals)
    (modelUsage : List (String × ModelUsageRecord)) (s : MergeState) (entry : String × Nat)
    (hinv : s.totalTokens = modelStatsCountSum s.modelStats) :
    (mergeModelStep ext false modelUsage s entry).totalTokens =
      modelStatsCountSum (mergeModelStep ext false modelUsage s entry).modelStats := by
  unfold mergeModelStep finishModel
  dsimp only
  split
  · exact hinv
  · cases lookupAssoc modelUsage entry.1 <;>
      simp [modelStatsCountSum, hinv]

/-- With no live scalars, the merged `totalTokens` is the sum of the full
    unsliced model list's counts. -/
theorem mergeLoop_count_invariant (ext : Externals)
    (modelUsage : List (String × ModelUsageRecord)) :
    ∀ (l : List (String × Nat)) (s : MergeState),
      s.totalTokens = modelStatsCountSum s.modelStats →
      (l.foldl (mergeModelStep ext false modelUsage) s).totalTokens =
        modelStatsCountSum ((l.foldl (mergeModelStep ext false modelUsage) s).modelStats) := by
  intro l
  induction l with
  | nil => intro s hinv; exact hinv
  | cons entry l ih =>
    intro s hinv
    exact ih _ (mergeModelStep_count_invariant ext modelUsage s entry hinv)

theorem sum_percentage_scaled (l : List ModelStats) (T : ℚ) :
    (l.map fun md => (md.count : ℚ) / T * 100).sum =
      ((l.map fun md => (md.count : ℚ)).sum) / T * 100 := by
  induction l with
  | nil => simp
  | cons a l ih =>
    simp only [List.map_cons, List.sum_cons, ih]
    ring

theorem cast_count_sum (l : List ModelStats) :
    ((modelStatsCountSum l : ℤ) : ℚ) = (l.map fun md => (md.count : ℚ)).sum := by
  induction l with
  | nil => simp [modelStatsCountSum]
  | cons a l ih =>
    simp only [modelStatsCountSum, List.map_cons, List.sum_cons] at *
    push_cast
    rw [← ih]
    push_cast
    ring

/-- C7 (amended): every top model's percentage is its count divided by the
    final merged `totalTokens` times 100 (never a partial sum), and 0 when
    `totalTokens = 0`.  The percentages over the full unsliced model set
    sum to exactly 100 whenever the scalar totals were accumulated from the
    per-model components (no nonzero live token scalar) and `totalTokens`
    is positive; when the live scalars are authoritative the sum can fall
    short of 100 (usage-bearing records without a model identifier), so
    the original normalization claim fails in general. -/
theorem percentage_normalization_amended (year : Int) (now : Timestamp) (ext : Externals)
    (statsCache : ClaudeStatsCache) (totalProjects : Nat) (us : ClaudeUsageSummary) :
    (∀ model ∈ (calculateStats year now ext statsCache totalProjects us).topModels,
      model.percentage =
        if 0 < (calculateStats year now ext statsCache totalProjects us).totalTokens then
          (model.count : ℚ) /
            ((calculateStats year now ext statsCache totalProjects us).totalTokens : ℚ) * 100
        else 0) ∧
    ((calculateStats year now ext statsCache totalProjects us).totalTokens = 0 →
      ∀ model ∈ (calculateStats year now ext statsCache totalProjects us).topModels,
        model.percentage = 0) ∧
    (hasUsageSummaryTokens us = false →
      0 < (calculateStats year now ext statsCache totalProjects us).totalTokens →
      ((mergeLoopState year ext statsCache us).modelStats.map
        (fun model => (model.count : ℚ) /
          ((calculateStats year now ext statsCache totalProjects us).totalTokens : ℚ) * 100)).sum =
        100) := by
  have hTT : (calculateStats year now ext statsCache totalProjects us).totalTokens =
      (mergeLoopState year ext statsCache us).totalTokens := rfl
  refine ⟨?_, ?_, ?_⟩
  · intro model hm
    exact mem_topModelsOf (mergeLoopState year ext statsCache us) model hm
  · intro h0 model hm
    rw [hTT] at h0
    rw [mem_topModelsOf (mergeLoopState year ext statsCache us) model hm, if_neg (by omega)]
  · intro hfalse hpos
    rw [hTT] at hpos ⊢
    have hz := (hasUsageSummaryTokens_false_iff us).mp hfalse
    have hinv : (mergeLoopState year ext statsCache us).totalTokens =
        modelStatsCountSum ((mergeLoopState year ext statsCache us).modelStats) := by
      unfold mergeLoopState
      rw [hfalse]
      apply mergeLoop_count_invariant
      simp [initMergeState, modelStatsCountSum, hz.1]
    have hne : ((mergeLoopState year ext statsCache us).totalTokens : ℚ) ≠ 0 := by
      exact_mod_cast (by omega : (mergeLoopState year ext statsCache us).totalTokens ≠ 0)
    rw [sum_percentage_scaled, ← cast_count_sum, ← hinv]
    field_simp

/-- Witness for C7 (amended): on the cache-derived input the single model
    holds all 15 tokens, its percentage is computed against the final
    total, and the unsliced percentages sum to exactly 100. -/
theorem percentage_normalization_amended_witness :
    ((mergeLoopState 2025 extDefault cacheWithCost emptyUsageSummary).modelStats.map
      (fun model => (model.count : ℚ) /
        ((calculateStats 2025 nowTs extDefault cacheWithCost 0 emptyUsageSummary).totalTokens : ℚ) *
          100)).sum = 100 :=
  (percentage_normalization_amended 2025 nowTs extDefault cacheWithCost 0
    emptyUsageSummary).2.2 (by decide) (by decide)

/-! ## C3: year filtering -/

theorem mem_updateAssoc {α β : Type} [DecidableEq α] :
    ∀ (m : List (α × β)) (k : α) (v : β) (kv : α × β),
      kv ∈ updateAssoc m k v → kv.1 = k ∨ kv ∈ m := by
  intro m
  induction m with
  | nil =>
    intro k v kv hkv
    simp only [updateAssoc, List.mem_singleton] at hkv
    subst hkv
    exact Or.inl rfl
  | cons hd rest ih =>
    intro k v kv hkv
    by_cases hk : hd.1 = k
    · simp only [updateAssoc, if_pos hk, List.mem_cons] at hkv
      rcases hkv with rfl | hkv
      · exact Or.inl rfl
      · exact Or.inr (List.mem_cons_of_mem _ hkv)
    · simp only [updateAssoc, if_neg hk, List.mem_cons] at hkv
      rcases hkv with rfl | hkv
      · exact Or.inr (List.mem_cons_self _ _)
      · rcases ih k v kv hkv with h | h
        · exact Or.inl h
        · exact Or.inr (List.mem_cons_of_mem _ h)

theorem jsDateFullYear_year {d : CalDate} {y : Int} (h : jsDateFullYear d = some y) :
    d.year = y := by
  unfold jsDateFullYear at h
  split at h
  · exact (Option.some.injEq _ _ ▸ h :)
  · exact absurd h (by simp)

theorem jsDateFullYear_valid {d : CalDate} {y : Int} (h : jsDateFullYear d = some y) :
    d.isValid = true := by
  unfold jsDateFullYear at h
  split at h
  · assumption
  · exact absurd h (by simp)

/-- Each live-branch daily step preserves the all-keys-in-year
    invariant. -/
theorem livePhaseStep_keys {year : Int} {p : DailyPhase} {kv0 : CalDate × Nat}
    (hp : ∀ kv ∈ p.dailyActivity, kv.1.year = year) :
    ∀ kv ∈ (livePhaseStep year p kv0).dailyActivity, kv.1.year = year := by
  intro kv hkv
  unfold livePhaseStep at hkv
  by_cases hy : jsDateFullYear kv0.1 = some year
  · rw [if_pos hy] at hkv
    dsimp only at hkv
    rcases mem_updateAssoc _ _ _ _ hkv with h | h
    · rw [h]; exact jsDateFullYear_year hy
    · exact hp kv h
  · rw [if_neg hy] at hkv
    exact hp kv hkv

theorem livePhase_fold_keys (year : Int) :
    ∀ (l : List (CalDate × Nat)) (p : DailyPhase),
      (∀ kv ∈ p.dailyActivity, kv.1.year = year) →
      ∀ kv ∈ (l.foldl (livePhaseStep year) p).dailyActivity, kv.1.year = year := by
  intro l
  induction l with
  | nil => intro p hp; exact hp
  | cons kv0 l ih => intro p hp; exact ih _ (livePhaseStep_keys hp)

/-- Each cache-branch daily step preserves the all-keys-in-year
    invariant. -/
theorem cachePhaseStep_keys {year : Int} {p : DailyPhase} {e : CacheDailyEntry}
    (hp : ∀ kv ∈ p.dailyActivity, kv.1.year = year) :
    ∀ kv ∈ (cachePhaseStep year p e).dailyActivity, kv.1.year = year := by
  intro kv hkv
  unfold cachePhaseStep at hkv
  cases hd : e.date with
  | none => rw [hd] at hkv; exact hp kv hkv
  | some d =>
    rw [hd] at hkv
    dsimp only at hkv
    by_cases hy : jsDateFullYear d = some year
    · rw [if_pos hy] at hkv
      dsimp only at hkv
      rcases mem_updateAssoc _ _ _ _ hkv with h | h
      · rw [h]; exact jsDateFullYear_year hy
      · exact hp kv h
    · rw [if_neg hy] at hkv
      exact hp kv hkv

theorem cachePhase_fold_keys (year : Int) :
    ∀ (l : List CacheDailyEntry) (p : DailyPhase),
      (∀ kv ∈ p.dailyActivity, kv.1.year = year) →
      ∀ kv ∈ (l.foldl (cachePhaseStep year) p).dailyActivity, kv.1.year = year := by
  intro l
  induction l with
  | nil => intro p hp; exact hp
  | cons e l ih => intro p hp; exact ih _ (cachePhaseStep_keys hp)

/-- The backstops only touch session and tool-call totals. -/
theorem dailyPhase_core_fields (year : Int) (statsCache : ClaudeStatsCache)
    (us : ClaudeUsageSummary) :
    (dailyPhase year statsCache us).dailyActivity =
        (dailyPhaseCore year statsCache us).dailyActivity ∧
      (dailyPhase year statsCache us).weekdayCounts =
        (dailyPhaseCore year statsCache us).weekdayCounts ∧
      (dailyPhase year statsCache us).monthlyCounts =
        (dailyPhaseCore year statsCache us).monthlyCounts := by
  unfold dailyPhase
  dsimp only
  refine ⟨?_, ?_, ?_⟩ <;> (repeat' split) <;> rfl

/-- Every key of the merged daily-activity map lies in the requested
    year. -/
theorem dailyPhase_keys (year : Int) (statsCache : ClaudeStatsCache)
    (us : ClaudeUsageSummary) :
    ∀ kv ∈ (dailyPhase year statsCache us).dailyActivity, kv.1.year = year := by
  intro kv hkv
  rw [(dailyPhase_core_fields year statsCache us).1] at hkv
  unfold dailyPhaseCore at hkv
  split at hkv
  · exact livePhase_fold_keys year us.dailyActivity initialDailyPhase (by simp [initialDailyPhase]) kv hkv
  · exact cachePhase_fold_keys year statsCache.dailyActivity initialDailyPhase
      (by simp [initialDailyPhase]) kv hkv

theorem mem_insertSorted {α : Type} (le : α → α → Bool) (a x : α) :
    ∀ l : List α, x ∈ insertSorted le a l ↔ x = a ∨ x ∈ l := by
  intro l
  induction l with
  | nil => simp [insertSorted]
  | cons b l ih =>
    unfold insertSorted
    split
    · simp
    · simp only [List.mem_cons, ih]
      tauto

theorem mem_jsSortBy {α : Type} (le : α → α → Bool) (x : α) :
    ∀ l : List α, x ∈ jsSortBy le l ↔ x ∈ l := by
  intro l
  induction l with
  | nil => simp [jsSortBy]
  | cons a l ih =>
    unfold jsSortBy
    rw [mem_insertSorted, ih]
    simp

/-- Every max-streak day lies in the requested year. -/
theorem calculateStreaks_maxStreakDays_year (act : List (CalDate × Nat)) (year : Int)
    (today : CalDate) :
    ∀ d ∈ (calculateStreaks act year today).maxStreakDays, d.year = year := by
  intro d hd
  unfold calculateStreaks at hd
  dsimp only at hd
  cases heq : jsSortBy CalDate.le ((act.map Prod.fst).filter (fun d => startsWithYearKey d year)) with
  | nil =>
    rw [heq] at hd
    simp at hd
  | cons d0 rest =>
    rw [heq] at hd
    dsimp only at hd
    have hmem : d ∈ d0 :: rest := List.mem_of_mem_drop (List.mem_of_mem_take hd)
    rw [← heq, mem_jsSortBy] at hmem
    have := (List.mem_filter.mp hmem).2
    simpa [startsWithYearKey] using this

/-- Whether a cache daily entry has a parsed date inside the year. -/
def cacheEntryInYear (year : Int) (e : CacheDailyEntry) : Bool :=
  match e.date with
  | some d => decide (jsDateFullYear d = some year)
  | none => false

/-- Whether a cache per-day model-token entry has a date inside the
    year. -/
def cacheModelTokensInYear (year : Int) (e : CacheDailyModelTokens) : Bool :=
  match e.date with
  | some d => decide (jsDateFullYear d = some year)
  | none => false

/-- The cache with only its in-year dated entries kept. -/
def filterCacheToYear (year : Int) (c : ClaudeStatsCache) : ClaudeStatsCache :=
  { c with
    dailyActivity := c.dailyActivity.filter (cacheEntryInYear year)
    dailyModelTokens := c.dailyModelTokens.filter (cacheModelTokensInYear year) }

/-- An out-of-year cache daily entry is skipped whole. -/
theorem cachePhaseStep_noop {year : Int} {p : DailyPhase} {e : CacheDailyEntry}
    (h : cacheEntryInYear year e = false) :
    cachePhaseStep year p e = p := by
  unfold cachePhaseStep
  cases hd : e.date with
  | none => rfl
  | some d =>
    have hy : ¬ jsDateFullYear d = some year := by
      simpa [cacheEntryInYear, hd] using h
    dsimp only
    rw [if_neg hy]

theorem foldl_cachePhase_filter (year : Int) :
    ∀ (l : List CacheDailyEntry) (p : DailyPhase),
      (l.filter (cacheEntryInYear year)).foldl (cachePhaseStep year) p =
        l.foldl (cachePhaseStep year) p := by
  intro l
  induction l with
  | nil => intro p; rfl
  | cons e l ih =>
    intro p
    cases hc : cacheEntryInYear year e with
    | true => rw [List.filter_cons_of_pos hc, List.foldl_cons, List.foldl_cons, ih]
    | false =>
      rw [List.filter_cons_of_neg (by simp [hc]), List.foldl_cons, cachePhaseStep_noop hc, ih]

/-- Dropping out-of-year cache entries leaves the year-filtered
    accumulation untouched. -/
theorem dailyPhaseCore_filter (year : Int) (statsCache : ClaudeStatsCache)
    (us : ClaudeUsageSummary) :
    dailyPhaseCore year (filterCacheToYear year statsCache) us =
      dailyPhaseCore year statsCache us := by
  unfold dailyPhaseCore filterCacheToYear
  by_cases h : us.dailyActivity ≠ []
  · rw [if_pos h, if_pos h]
  · rw [if_neg h, if_neg h]
    exact foldl_cachePhase_filter year statsCache.dailyActivity initialDailyPhase

/-- C3: no event or cache entry dated outside the requested year
    contributes to the snapshot's daily-activity map, streak computation,
    or the weekday and monthly distributions: an out-of-year raw event can
    change nothing but the dedup set; every daily-activity key and every
    max-streak day carries the requested year; and removing all
    out-of-year cache entries leaves daily activity, the streak fields and
    both distributions unchanged. -/
theorem year_filter_no_outside_contribution :
    (∀ (year : Int) (pricing : String → Option ModelPricing) (s : CollectorState)
        (e : RawEntry),
      entryInYear year e = false →
      processStep year pricing s e =
        { s with processedHashes := (processStep year pricing s e).processedHashes }) ∧
    (∀ (year : Int) (now : Timestamp) (ext : Externals) (statsCache : ClaudeStatsCache)
        (totalProjects : Nat) (us : ClaudeUsageSummary),
      (∀ kv ∈ (calculateStats year now ext statsCache totalProjects us).dailyActivity,
        kv.1.year = year) ∧
      (∀ d ∈ (calculateStats year now ext statsCache totalProjects us).maxStreakDays,
        d.year = year) ∧
      ((calculateStats year now ext (filterCacheToYear year statsCache) totalProjects
            us).dailyActivity =
          (calculateStats year now ext statsCache totalProjects us).dailyActivity ∧
        (calculateStats year now ext (filterCacheToYear year statsCache) totalProjects
            us).maxStreak =
          (calculateStats year now ext statsCache totalProjects us).maxStreak ∧
        (calculateStats year now ext (filterCacheToYear year statsCache) totalProjects
            us).currentStreak =
          (calculateStats year now ext statsCache totalProjects us).currentStreak ∧
        (calculateStats year now ext (filterCacheToYear year statsCache) totalProjects
            us).maxStreakDays =
          (calculateStats year now ext statsCache totalProjects us).maxStreakDays ∧
        (calculateStats year now ext (filterCacheToYear year statsCache) totalProjects
            us).weekdayActivity =
          (calculateStats year now ext statsCache totalProjects us).weekdayActivity ∧
        (calculateStats year now ext (filterCacheToYear year statsCache) totalProjects
            us).monthlyActivity =
          (calculateStats year now ext statsCache totalProjects us).monthlyActivity)) := by
  constructor
  · intro year pricing s e h
    exact processStep_of_notInYear h
  · intro year now ext statsCache totalProjects us
    have hdaily : (calculateStats year now ext statsCache totalProjects us).dailyActivity =
        (dailyPhase year statsCache us).dailyActivity := rfl
    refine ⟨?_, ?_, ?_⟩
    · intro kv hkv
      exact dailyPhase_keys year statsCache us kv hkv
    · intro d hd
      exact calculateStreaks_maxStreakDays_year
        (dailyPhase year statsCache us).dailyActivity year now.date d hd
    · have hfields := dailyPhase_core_fields year statsCache us
      have hfields' := dailyPhase_core_fields year (filterCacheToYear year statsCache) us
      have hcore := dailyPhaseCore_filter year statsCache us
      have hda : (dailyPhase year (filterCacheToYear year statsCache) us).dailyActivity =
          (dailyPhase year statsCache us).dailyActivity := by
        rw [hfields'.1, hfields.1, hcore]
      have hwk : (dailyPhase year (filterCacheToYear year statsCache) us).weekdayCounts =
          (dailyPhase year statsCache us).weekdayCounts := by
        rw [hfields'.2.1, hfields.2.1, hcore]
      have hmo : (dailyPhase year (filterCacheToYear year statsCache) us).monthlyCounts =
          (dailyPhase year statsCache us).monthlyCounts := by
        rw [hfields'.2.2, hfields.2.2, hcore]
      refine ⟨hda, ?_, ?_, ?_, ?_, ?_⟩
      · show (calculateStreaks (dailyPhase year (filterCacheToYear year statsCache)
            us).dailyActivity year now.date).maxStreak = _
        rw [hda]; rfl
      · show (calculateStreaks (dailyPhase year (filterCacheToYear year statsCache)
            us).dailyActivity year now.date).currentStreak = _
        rw [hda]; rfl
      · show (calculateStreaks (dailyPhase year (filterCacheToYear year statsCache)
            us).dailyActivity year now.date).maxStreakDays = _
        rw [hda]; rfl
      · show buildWeekdayActivity (dailyPhase year (filterCacheToYear year statsCache)
            us).weekdayCounts = _
        rw [hwk]; rfl
      · show buildMonthlyActivity (dailyPhase year (filterCacheToYear year statsCache)
            us).monthlyCounts = _
        rw [hmo]; rfl

/-- Witness for C3 at concrete inputs: an out-of-year 2024 record changes
    nothing but the dedup set, and on a cache holding one 2025 entry every
    daily key and max-streak day is a 2025 date. -/
theorem year_filter_no_outside_contribution_witness :
    (processStep 2025 (fun _ => none) initialCollectorState outOfYearEntry =
      { initialCollectorState with processedHashes :=
          (processStep 2025 (fun _ => none) initialCollectorState
            outOfYearEntry).processedHashes }) ∧
    ((⟨2025, 1, 5⟩ : CalDate), 3).1.year = 2025 ∧
    (⟨2025, 1, 5⟩ : CalDate).year = 2025 :=
  ⟨year_filter_no_outside_contribution.1 2025 (fun _ => none) initialCollectorState
      outOfYearEntry (by decide),
    (year_filter_no_outside_contribution.2 2025 nowTs extDefault cacheWithCost 0
      emptyUsageSummary).1 (⟨2025, 1, 5⟩, 3) (by decide),
    (year_filter_no_outside_contribution.2 2025 nowTs extDefault cacheWithCost 0
      emptyUsageSummary).2.1 ⟨2025, 1, 5⟩ (by decide)⟩

/-! ## C9: the monthly distribution (modelled from the spec) -/

theorem getD_mem {l : List Nat} : ∀ {j : Nat}, j < l.length → l.getD j 0 ∈ l := by
  induction l with
  | nil => intro j hj; simp at hj
  | cons a l ih =>
    intro j hj
    cases j with
    | zero => exact List.mem_cons_self a l
    | succ j => exact List.mem_cons_of_mem a (ih (by simpa using hj))

theorem foldl_max_bound :
    ∀ (l : List Nat) (c : Nat),
      c ≤ l.foldl Nat.max c ∧ ∀ x ∈ l, x ≤ l.foldl Nat.max c := by
  intro l
  induction l with
  | nil => intro c; exact ⟨Nat.le_refl c, by simp⟩
  | cons a l ih =>
    intro c
    rw [List.foldl_cons]
    obtain ⟨h1, h2⟩ := ih (Nat.max c a)
    refine ⟨Nat.le_trans (Nat.le_max_left c a) h1, ?_⟩
    intro x hx
    rcases List.mem_cons.mp hx with rfl | hx
    · exact Nat.le_trans (Nat.le_max_right c x) h1
    · exact h2 x hx

/-- The argmax walk: the running best is the max seen so far, and the best
    index is either the carried one (nothing beat the carried count) or the
    first list index strictly beating everything before it. -/
theorem argmax_go (l : List Nat) :
    ∀ (i b c : Nat),
      (l.foldl argmaxStep (i, b, c)).2.2 = l.foldl Nat.max c ∧
      (((l.foldl argmaxStep (i, b, c)).2.1 = b ∧
          (l.foldl argmaxStep (i, b, c)).2.2 = c) ∨
        ∃ j, j < l.length ∧ (l.foldl argmaxStep (i, b, c)).2.1 = i + j ∧
          (l.foldl argmaxStep (i, b, c)).2.2 = l.getD j 0 ∧ c < l.getD j 0 ∧
          ∀ j' < j, l.getD j' 0 < l.getD j 0) := by
  induction l with
  | nil => intro i b c; exact ⟨rfl, Or.inl ⟨rfl, rfl⟩⟩
  | cons a l ih =>
    intro i b c
    rw [List.foldl_cons, List.foldl_cons]
    by_cases hc : c < a
    · have hstep : argmaxStep (i, b, c) a = (i + 1, i, a) := by simp [argmaxStep, hc]
      have hmax : Nat.max c a = a := Nat.max_eq_right (Nat.le_of_lt hc)
      rw [hstep, hmax]
      obtain ⟨ih1, ih2⟩ := ih (i + 1) i a
      refine ⟨ih1, ?_⟩
      rcases ih2 with ⟨hb, hcv⟩ | ⟨j, hj, hidx, hval, hlt, hprev⟩
      · refine Or.inr ⟨0, by simp, by omega, by simpa using hcv, by simpa using hc, ?_⟩
        intro j' hj'
        omega
      · refine Or.inr ⟨j + 1, by simpa using hj, by omega, by simpa using hval, ?_, ?_⟩
        · simpa using Nat.lt_trans hc hlt
        · intro j' hj'
          cases j' with
          | zero => simpa using hlt
          | succ j' => simpa using hprev j' (by omega)
    · have hstep : argmaxStep (i, b, c) a = (i + 1, b, c) := by simp [argmaxStep, hc]
      have hmax : Nat.max c a = c := Nat.max_eq_left (Nat.le_of_not_lt hc)
      rw [hstep, hmax]
      obtain ⟨ih1, ih2⟩ := ih (i + 1) b c
      refine ⟨ih1, ?_⟩
      rcases ih2 with ⟨hb, hcv⟩ | ⟨j, hj, hidx, hval, hlt, hprev⟩
      · exact Or.inl ⟨hb, hcv⟩
      · refine Or.inr ⟨j + 1, by simpa using hj, by omega, by simpa using hval,
          by simpa using hlt, ?_⟩
        intro j' hj'
        cases j' with
        | zero =>
          have : a ≤ c := by omega
          simpa using Nat.lt_of_le_of_lt this hlt
        | succ j' => simpa using hprev j' (by omega)

/-- The distribution argmax: the flagged index attains the recorded
    maximum, nothing exceeds it, every earlier bucket is strictly below it
    (first index wins ties), and the index is 0 or a real list index. -/
theorem argmaxFirst_spec (counts : List Nat) :
    counts.getD (argmaxFirst counts).1 0 = (argmaxFirst counts).2 ∧
    (∀ j, counts.getD j 0 ≤ (argmaxFirst counts).2) ∧
    (∀ j < (argmaxFirst counts).1, counts.getD j 0 < (argmaxFirst counts).2) ∧
    ((argmaxFirst counts).1 = 0 ∨ (argmaxFirst counts).1 < counts.length) := by
  obtain ⟨h1, h2⟩ := argmax_go counts 0 0 0
  have hub : ∀ j, counts.getD j 0 ≤ (counts.foldl argmaxStep (0, 0, 0)).2.2 := by
    intro j
    rw [h1]
    by_cases hj : j < counts.length
    · exact (foldl_max_bound counts 0).2 _ (getD_mem hj)
    · rw [List.getD_eq_default _ _ (by omega)]
      exact Nat.zero_le _
  unfold argmaxFirst
  dsimp only
  rcases h2 with ⟨hb, hcv⟩ | ⟨j, hj, hidx, hval, _, hprev⟩
  · refine ⟨?_, hub, ?_, Or.inl hb⟩
    · rw [hb, hcv]
      have := hub 0
      rw [hcv] at this
      omega
    · intro j' hj'
      rw [hb] at hj'
      omega
  · refine ⟨?_, hub, ?_, Or.inr (by omega)⟩
    · rw [hidx, hval]
      simp
    · intro j' hj'
      rw [hidx] at hj'
      rw [hval]
      exact hprev j' (by omega)

theorem bumpAt_length (l : List Nat) (i n : Nat) : (bumpAt l i n).length = l.length := by
  simp [bumpAt]

theorem bumpAt_getD :
    ∀ (l : List Nat) (i j n : Nat),
      (bumpAt l i n).getD j 0 =
        if j = i ∧ i < l.length then l.getD j 0 + n else l.getD j 0 := by
  intro l
  induction l with
  | nil => intro i j n; simp [bumpAt]
  | cons a l ih =>
    intro i j n
    cases i with
    | zero =>
      cases j with
      | zero => simp [bumpAt]
      | succ j => simp [bumpAt]
    | succ i =>
      cases j with
      | zero => simp [bumpAt]
      | succ j =>
        have hstep : bumpAt (a :: l) (i + 1) n = a :: bumpAt l i n := by
          simp [bumpAt]
        rw [hstep, List.getD_cons_succ, List.getD_cons_succ, ih i j n]
        by_cases h : j = i ∧ i < l.length
        · rw [if_pos h, if_pos ⟨by omega, by simpa using h.2⟩]
        · rw [if_neg h, if_neg (by simpa [Nat.succ_lt_succ_iff] using h)]

theorem valid_month_bounds {d : CalDate} (h : d.isValid = true) :
    1 ≤ d.month ∧ d.month ≤ 12 := by
  simp only [CalDate.isValid, Bool.and_eq_true, decide_eq_true_eq] at h
  omega

/-- The monthly-bucket view of one live-branch step. -/
theorem livePhaseStep_monthly (year : Int) (p : DailyPhase) (kv : CalDate × Nat) :
    (livePhaseStep year p kv).monthlyCounts =
      if jsDateFullYear kv.1 = some year then
        bumpAt p.monthlyCounts (kv.1.month - 1) kv.2
      else p.monthlyCounts := by
  unfold livePhaseStep
  split <;> rfl

/-- The monthly-bucket view of one cache-branch step. -/
theorem cachePhaseStep_monthly (year : Int) (p : DailyPhase) (e : CacheDailyEntry) :
    (cachePhaseStep year p e).monthlyCounts =
      match e.date with
      | some d =>
        if jsDateFullYear d = some year then
          bumpAt p.monthlyCounts (d.month - 1) (e.messageCount.getD 0)
        else p.monthlyCounts
      | none => p.monthlyCounts := by
  unfold cachePhaseStep
  cases e.date with
  | none => rfl
  | some d =>
    dsimp only
    split <;> rfl

theorem livePhase_monthly_len (year : Int) :
    ∀ (l : List (CalDate × Nat)) (p : DailyPhase),
      ((l.foldl (livePhaseStep year) p).monthlyCounts).length = p.monthlyCounts.length := by
  intro l
  induction l with
  | nil => intro p; rfl
  | cons kv l ih =>
    intro p
    rw [List.foldl_cons, ih, livePhaseStep_monthly]
    split <;> simp [bumpAt_length]

theorem cachePhase_monthly_len (year : Int) :
    ∀ (l : List CacheDailyEntry) (p : DailyPhase),
      ((l.foldl (cachePhaseStep year) p).monthlyCounts).length = p.monthlyCounts.length := by
  intro l
  induction l with
  | nil => intro p; rfl
  | cons e l ih =>
    intro p
    rw [List.foldl_cons, ih, cachePhaseStep_monthly]
    cases e.date with
    | none => rfl
    | some d =>
      dsimp only
      split <;> simp [bumpAt_length]

/-- The spec's month bucket over the live daily-activity map: the event
    counts of in-year days falling in the given calendar month. -/
def liveMonthlyBucket (year : Int) (month : Nat) (l : List (CalDate × Nat)) : Nat :=
  ((l.filter (fun kv =>
    decide (jsDateFullYear kv.1 = some year) && (kv.1.month == month))).map Prod.snd).sum

/-- The month of a cache daily entry's date, 0 when absent. -/
def cacheEntryMonth (e : CacheDailyEntry) : Nat :=
  match e.date with
  | some d => d.month
  | none => 0

/-- The spec's month bucket over the cache's per-day entries. -/
def cacheMonthlyBucket (year : Int) (month : Nat) (l : List CacheDailyEntry) : Nat :=
  ((l.filter (fun e => cacheEntryInYear year e && (cacheEntryMonth e == month))).map
    (fun e => e.messageCount.getD 0)).sum

theorem livePhase_monthly_fold (year : Int) :
    ∀ (l : List (CalDate × Nat)) (p : DailyPhase) (i : Nat),
      i < p.monthlyCounts.length →
      ((l.foldl (livePhaseStep year) p).monthlyCounts).getD i 0 =
        p.monthlyCounts.getD i 0 + liveMonthlyBucket year (i + 1) l := by
  intro l
  induction l with
  | nil => intro p i hi; simp [liveMonthlyBucket]
  | cons kv l ih =>
    intro p i hi
    rw [List.foldl_cons]
    rw [ih (livePhaseStep year p kv) i
      (by rw [livePhaseStep_monthly]; split <;> simp [bumpAt_length, hi])]
    rw [livePhaseStep_monthly]
    unfold liveMonthlyBucket
    by_cases hy : jsDateFullYear kv.1 = some year
    · rw [if_pos hy, bumpAt_getD]
      have hv := valid_month_bounds (jsDateFullYear_valid hy)
      by_cases hm : kv.1.month = i + 1
      · rw [if_pos ⟨by omega, by omega⟩,
          List.filter_cons_of_pos (by simp [hy, hm])]
        simp only [List.map_cons, List.sum_cons]
        omega
      · rw [if_neg (by omega), List.filter_cons_of_neg (by simp [hm])]
    · rw [if_neg hy, List.filter_cons_of_neg (by simp [hy])]

theorem cachePhase_monthly_fold (year : Int) :
    ∀ (l : List CacheDailyEntry) (p : DailyPhase) (i : Nat),
      i < p.monthlyCounts.length →
      ((l.foldl (cachePhaseStep year) p).monthlyCounts).getD i 0 =
        p.monthlyCounts.getD i 0 + cacheMonthlyBucket year (i + 1) l := by
  intro l
  induction l with
  | nil => intro p i hi; simp [cacheMonthlyBucket]
  | cons e l ih =>
    intro p i hi
    rw [List.foldl_cons]
    rw [ih (cachePhaseStep year p e) i
      (by rw [cachePhaseStep_monthly]
          cases e.date <;> dsimp only
          · exact hi
          · split <;> simp [bumpAt_length, hi])]
    rw [cachePhaseStep_monthly]
    unfold cacheMonthlyBucket
    cases hd : e.date with
    | none =>
      dsimp only
      rw [List.filter_cons_of_neg (by simp [cacheEntryInYear, hd])]
    | some d =>
      dsimp only
      by_cases hy : jsDateFullYear d = some year
      · rw [if_pos hy, bumpAt_getD]
        have hv := valid_month_bounds (jsDateFullYear_valid hy)
        by_cases hm : d.month = i + 1
        · rw [if_pos ⟨by omega, by omega⟩,
            List.filter_cons_of_pos (by simp [cacheEntryInYear, cacheEntryMonth, hd, hy, hm])]
          simp only [List.map_cons, List.sum_cons]
          omega
        · rw [if_neg (by omega),
            List.filter_cons_of_neg (by simp [cacheEntryInYear, cacheEntryMonth, hd, hm])]
      · rw [if_neg hy,
          List.filter_cons_of_neg (by simp [cacheEntryInYear, hd, hy])]

/-- Modelled from the spec: the value of month bucket `i` (0 = January) of
    the snapshot — event counts summed from the year-filtered daily
    activity of whichever source the merger selected. -/
def monthlyBucketSpec (year : Int) (statsCache : ClaudeStatsCache)
    (us : ClaudeUsageSummary) (i : Nat) : Nat :=
  if us.dailyActivity ≠ [] then liveMonthlyBucket year (i + 1) us.dailyActivity
  else cacheMonthlyBucket year (i + 1) statsCache.dailyActivity

theorem initial_monthly_getD : ∀ i : Nat, initialDailyPhase.monthlyCounts.getD i 0 = 0 := by
  intro i
  rcases i with _ | _ | _ | _ | _ | _ | _ | _ | _ | _ | _ | _ | i <;> rfl

theorem dailyPhase_monthly_len (year : Int) (statsCache : ClaudeStatsCache)
    (us : ClaudeUsageSummary) :
    (dailyPhase year statsCache us).monthlyCounts.length = 12 := by
  rw [(dailyPhase_core_fields year statsCache us).2.2]
  unfold dailyPhaseCore
  split
  · show ((us.dailyActivity.foldl (livePhaseStep year) initialDailyPhase).monthlyCounts).length = 12
    rw [livePhase_monthly_len]
    rfl
  · rw [cachePhase_monthly_len]
    rfl

theorem dailyPhase_monthly_bucket (year : Int) (statsCache : ClaudeStatsCache)
    (us : ClaudeUsageSummary) :
    ∀ i < 12,
      (dailyPhase year statsCache us).monthlyCounts.getD i 0 =
        monthlyBucketSpec year statsCache us i := by
  intro i hi
  rw [(dailyPhase_core_fields year statsCache us).2.2]
  unfold dailyPhaseCore monthlyBucketSpec
  split
  · dsimp only
    rw [livePhase_monthly_fold year us.dailyActivity initialDailyPhase i hi,
      initial_monthly_getD]
    omega
  · rw [cachePhase_monthly_fold year statsCache.dailyActivity initialDailyPhase i hi,
      initial_monthly_getD]
    omega

/-- C9 (modelled from the spec, which the absent implementation must
    satisfy together with the `MonthlyActivity` declaration): the snapshot
    carries a fixed 12-bucket monthly distribution indexed by calendar
    month, each bucket summing event counts from the year-filtered daily
    activity, and the highest-count bucket is flagged most-active with the
    first index winning ties. -/
theorem monthly_distribution_correct (year : Int) (now : Timestamp) (ext : Externals)
    (statsCache : ClaudeStatsCache) (totalProjects : Nat) (us : ClaudeUsageSummary) :
    (calculateStats year now ext statsCache totalProjects us).monthlyActivity.counts.length =
      12 ∧
    (∀ i < 12,
      (calculateStats year now ext statsCache totalProjects
          us).monthlyActivity.counts.getD i 0 =
        monthlyBucketSpec year statsCache us i) ∧
    (calculateStats year now ext statsCache totalProjects us).monthlyActivity.counts.getD
        (calculateStats year now ext statsCache totalProjects
          us).monthlyActivity.mostActiveMonth 0 =
      (calculateStats year now ext statsCache totalProjects us).monthlyActivity.maxCount ∧
    (∀ j,
      (calculateStats year now ext statsCache totalProjects
          us).monthlyActivity.counts.getD j 0 ≤
        (calculateStats year now ext statsCache totalProjects us).monthlyActivity.maxCount) ∧
    (∀ j < (calculateStats year now ext statsCache totalProjects
        us).monthlyActivity.mostActiveMonth,
      (calculateStats year now ext statsCache totalProjects
          us).monthlyActivity.counts.getD j 0 <
        (calculateStats year now ext statsCache totalProjects us).monthlyActivity.maxCount) ∧
    (calculateStats year now ext statsCache totalProjects
      us).monthlyActivity.mostActiveMonth < 12 := by
  obtain ⟨h1, h2, h3, h4⟩ :=
    argmaxFirst_spec ((dailyPhase year statsCache us).monthlyCounts)
  refine ⟨dailyPhase_monthly_len year statsCache us,
    dailyPhase_monthly_bucket year statsCache us, h1, h2, h3, ?_⟩
  rcases h4 with h4 | h4
  · show (argmaxFirst ((dailyPhase year statsCache us).monthlyCounts)).1 < 12
    omega
  · show (argmaxFirst ((dailyPhase year statsCache us).monthlyCounts)).1 < 12
    rw [dailyPhase_monthly_len year statsCache us] at h4
    exact h4

/-- Witness for C9 at a cache with one 2025-01-05 entry: January's bucket
    matches the spec sum, no bucket exceeds the recorded maximum, and the
    most-active index is a real month index. -/
theorem monthly_distribution_correct_witness :
    (calculateStats 2025 nowTs extDefault cacheWithCost 0
        emptyUsageSummary).monthlyActivity.counts.getD 0 0 =
      monthlyBucketSpec 2025 cacheWithCost emptyUsageSummary 0 ∧
    (calculateStats 2025 nowTs extDefault cacheWithCost 0
        emptyUsageSummary).monthlyActivity.counts.getD 5 0 ≤
      (calculateStats 2025 nowTs extDefault cacheWithCost 0
        emptyUsageSummary).monthlyActivity.maxCount ∧
    (calculateStats 2025 nowTs extDefault cacheWithCost 0
      emptyUsageSummary).monthlyActivity.mostActiveMonth < 12 :=
  ⟨(monthly_distribution_correct 2025 nowTs extDefault cacheWithCost 0
      emptyUsageSummary).2.1 0 (by decide),
    (monthly_distribution_correct 2025 nowTs extDefault cacheWithCost 0
      emptyUsageSummary).2.2.2.1 5,
    (monthly_distribution_correct 2025 nowTs extDefault cacheWithCost 0
      emptyUsageSummary).2.2.2.2.2⟩

end CCWrapped
